import Mathlib

/-!
Verification of `generate_data.py` (wiidpercentilemapping): a single-pass
CSV-to-JS converter.  The script reads rows, builds two insertion-ordered
mappings (`raw_data` and `countries_info`), sorts each percentile series,
prunes empty metadata and serializes both as two compact-JSON constant
declarations.

Shallow embedding conventions:
* Python `str` is Lean `String`; the string operations the script uses
  (`strip`, `startswith`, `replace`) are re-implemented on `List Char`
  following Python's documented semantics.
* Python `dict` (insertion-ordered) is an association list `List (String × β)`
  with unique keys maintained by insert-if-absent.
* A CSV row from `csv.DictReader` is an association list from header names to
  cell strings; `row[k]` raises `KeyError` when the column is missing while
  `row.get(k, d)` returns the default.
* Exceptions are modelled with `Except PyErr`; an uncaught exception aborts
  the whole run.
* Python `float` values are idealized as exact decimal values
  `mantissa · 10^exponent` plus the special values `inf`, `-inf` and `nan`;
  conversion of a decimal literal keeps the exact value (the 53-bit rounding
  of IEEE doubles is not modelled; it can only matter for inputs with more
  than about 17 significant digits).  Overflow of a literal to infinity is
  modelled at the exact tie threshold `2^1024 - 2^970`.  Digit-group
  underscores and non-ASCII Unicode decimal digits accepted by Python's
  `float` are not modelled (such cells parse to absent here).
-/

namespace WiidGen

/-- Python's whitespace set used by `str.strip` and `float` (the characters
for which `str.isspace` is true). -/
def isPySpace (c : Char) : Bool :=
  let n := c.toNat
  (9 ≤ n && n ≤ 13) || n == 32 || (28 ≤ n && n ≤ 31) || n == 133 || n == 160 ||
    n == 5760 || (8192 ≤ n && n ≤ 8202) || n == 8232 || n == 8233 ||
    n == 8239 || n == 8287 || n == 12288

/-- Remove leading Python whitespace. -/
def stripLeft (l : List Char) : List Char := l.dropWhile isPySpace

/-- Remove trailing Python whitespace. -/
def stripRight (l : List Char) : List Char := (l.reverse.dropWhile isPySpace).reverse

/-- Python `str.strip()` on a list of characters. -/
def stripList (l : List Char) : List Char := stripRight (stripLeft l)

/-- Python `str.strip()`. -/
def pyStrip (s : String) : String := ⟨stripList s.data⟩

/-- `startsWithList pat l` is Python `l.startswith(pat)` on character lists. -/
def startsWithList : List Char → List Char → Bool
  | [], _ => true
  | _ :: _, [] => false
  | p :: ps, c :: cs => p == c && startsWithList ps cs

/-- Python `s.startswith(pat)`. -/
def pyStartsWith (s pat : String) : Bool := startsWithList pat.data s.data

/-- Fuel-driven worker for `replaceList`; the fuel dominates the input
length, so the fuel-exhausted arm is never reached. -/
def replaceListAux (pat rep : List Char) : Nat → List Char → List Char
  | _, [] => []
  | 0, s => s
  | fuel + 1, c :: rest =>
    if pat ≠ [] ∧ startsWithList pat (c :: rest) then
      rep ++ replaceListAux pat rep fuel (rest.drop (pat.length - 1))
    else
      c :: replaceListAux pat rep fuel rest

/-- Python `s.replace(pat, rep)` on character lists: replace every
non-overlapping occurrence of `pat`, scanning left to right.  (For the
unused empty-pattern case this returns the input unchanged.) -/
def replaceList (pat rep s : List Char) : List Char :=
  replaceListAux pat rep s.length s

/-- Python `s.replace(pat, rep)`. -/
def pyReplace (s pat rep : String) : String := ⟨replaceList pat.data rep.data s.data⟩

/-- The value of a Python `float`: a finite value is kept exactly as
`mantissa · 10^exponent`. -/
inductive PyFloat where
  | finite (m : Int) (e10 : Int)
  | inf
  | ninf
  | nan
deriving DecidableEq, Repr

/-- ASCII decimal digit test. -/
def isDigitCh (c : Char) : Bool := 48 ≤ c.toNat && c.toNat ≤ 57

/-- Numeric value of a run of ASCII digits. -/
def digitsToNat (l : List Char) : Nat := l.foldl (fun a c => a * 10 + (c.toNat - 48)) 0

/-- Parse the optional exponent part of a Python float literal
(empty input means exponent 0); `none` on malformed trailing input. -/
def parseExp : List Char → Option Int
  | [] => some 0
  | c :: rest =>
    if c == 'e' || c == 'E' then
      match rest with
      | '+' :: ds => if ds ≠ [] ∧ ds.all isDigitCh then some (digitsToNat ds) else none
      | '-' :: ds => if ds ≠ [] ∧ ds.all isDigitCh then some (-(digitsToNat ds : Int)) else none
      | ds => if ds ≠ [] ∧ ds.all isDigitCh then some (digitsToNat ds) else none
    else none

/-- Parse the body (after sign) of a Python decimal float literal:
`digits [. digits] [exp]` or `. digits [exp]`, yielding the magnitude as an
exact pair `(mantissa, decimal exponent)`. -/
def parseFloatBody (l : List Char) : Option (Nat × Int) :=
  let intPart := l.takeWhile isDigitCh
  let rest1 := l.dropWhile isDigitCh
  match rest1 with
  | '.' :: rest2 =>
    let fracPart := rest2.takeWhile isDigitCh
    let rest3 := rest2.dropWhile isDigitCh
    if intPart = [] ∧ fracPart = [] then none
    else
      match parseExp rest3 with
      | none => none
      | some e =>
        some (digitsToNat intPart * 10 ^ fracPart.length + digitsToNat fracPart,
          e - fracPart.length)
  | rest2 =>
    if intPart = [] then none
    else
      match parseExp rest2 with
      | none => none
      | some e => some (digitsToNat intPart, e)

/-- Values at or above this bound round to IEEE double infinity
(`2^1024 - 2^970`, the round-half-even tie point above the largest finite
double). -/
def overflowBoundInt : Int := ((2 : Int) ^ 32) ^ 32 - ((2 : Int) ^ 32) ^ 30 * 2 ^ 10

/-- Whether the magnitude `m · 10^e` converts to double infinity. -/
def decOverflow (m : Nat) (e : Int) : Bool :=
  if 0 ≤ e then decide (overflowBoundInt ≤ (m : Int) * 10 ^ e.toNat)
  else decide (overflowBoundInt * 10 ^ (-e).toNat ≤ (m : Int))

/-- Python `float(s)` for a string argument: strip whitespace, accept an
optional sign followed by a case-insensitive `inf`/`infinity`/`nan` or a
decimal literal; `none` models `ValueError`. -/
def pyFloatOfString (s : String) : Option PyFloat :=
  let l := stripList s.data
  let sgnNeg : Bool := startsWithList ['-'] l
  let body := if startsWithList ['-'] l ∨ startsWithList ['+'] l then l.drop 1 else l
  let lower := body.map Char.toLower
  if lower = "inf".data ∨ lower = "infinity".data then
    some (if sgnNeg then PyFloat.ninf else PyFloat.inf)
  else if lower = "nan".data then
    some PyFloat.nan
  else
    match parseFloatBody body with
    | none => none
    | some me =>
      if decOverflow me.1 me.2 then some (if sgnNeg then PyFloat.ninf else PyFloat.inf)
      else some (PyFloat.finite (if sgnNeg then -(me.1 : Int) else (me.1 : Int)) me.2)

/-- Python `round(x)` for the finite float value `m · 10^e`: round half to
even (banker's rounding). -/
def roundHalfEven (m e : Int) : Int :=
  if 0 ≤ e then m * 10 ^ e.toNat
  else
    let d : Int := 10 ^ (-e).toNat
    let q := m.fdiv d
    let r := m.fmod d
    if 2 * r < d then q
    else if d < 2 * r then q + 1
    else if q % 2 = 0 then q else q + 1

/-- The Python exceptions the script can leak to the caller. -/
inductive PyErr where
  | keyError (k : String)
  | overflowError
deriving DecidableEq, Repr

/-- `parse_int_or_none(val)` from `generate_data.py`: `None` for a missing or
blank cell, otherwise `int(round(float(val)))` with `ValueError`/`TypeError`
caught (yielding `None`).  `round` of an infinite float raises
`OverflowError`, which the `except` clause does not catch, so it escapes;
`round` of `nan` raises `ValueError`, which is caught. -/
def parse_int_or_none (val : Option String) : Except PyErr (Option Int) :=
  match val with
  | none => Except.ok none
  | some v =>
    if pyStrip v = "" then Except.ok none
    else
      match pyFloatOfString v with
      | none => Except.ok none
      | some (PyFloat.finite m e) => Except.ok (some (roundHalfEven m e))
      | some PyFloat.inf => Except.error PyErr.overflowError
      | some PyFloat.ninf => Except.error PyErr.overflowError
      | some PyFloat.nan => Except.ok none

/-- Decidable equality of run results, used to evaluate the model on
concrete inputs. -/
instance {e a : Type} [DecidableEq e] [DecidableEq a] : DecidableEq (Except e a) := fun x y =>
  match x, y with
  | Except.error u, Except.error v =>
    if h : u = v then Decidable.isTrue (by rw [h])
    else Decidable.isFalse (fun hh => h (Except.error.inj hh))
  | Except.ok u, Except.ok v =>
    if h : u = v then Decidable.isTrue (by rw [h])
    else Decidable.isFalse (fun hh => h (Except.ok.inj hh))
  | Except.error _, Except.ok _ => Decidable.isFalse (fun hh => Except.noConfusion hh)
  | Except.ok _, Except.error _ => Decidable.isFalse (fun hh => Except.noConfusion hh)

/-- One data point of a Series, Python dict
`{'percentile': …, 'global'?: …, 'region'?: …, 'income'?: …}`; an optional
key is present exactly when the field is `some`. -/
structure Point where
  percentile : Int
  global : Option Int
  region : Option Int
  income : Option Int
deriving DecidableEq, Repr

/-- Per-country metadata as first stored (before the pruning pass):
`{'region': …, 'incomegroup': …}` with `None` for empty values. -/
structure Info where
  region : Option String
  incomegroup : Option String
deriving DecidableEq, Repr

/-- A CSV row from `csv.DictReader`: header name to cell value, in column
order.  A column missing from the header is a missing key. -/
abbrev Row := List (String × String)

/-- The per-country `{year: [point, …]}` dict, insertion-ordered. -/
abbrev YearTbl := List (String × List Point)

/-- The `raw_data` dict `{country: {year: [point, …]}}`, insertion-ordered
(the spec's CountryYearTable). -/
abbrev RawData := List (String × YearTbl)

/-- The `countries_info` dict before pruning (the spec's CountryInfo map). -/
abbrev CtrInfo := List (String × Info)

/-- A pruned CountryInfo record: the keys that survive serialization. -/
abbrev InfoRec := List (String × String)

/-- Python dict lookup `d[k]` as an option (first matching key). -/
def alookup (k : String) : List (String × β) → Option β
  | [] => none
  | (k', v) :: rest => if k' = k then some v else alookup k rest

/-- The keys of a dict, in insertion order. -/
def akeys (l : List (String × β)) : List String := l.map Prod.fst

/-- Python dict update `d[k] = f(d[k])` for an existing key `k`. -/
def aupdate (k : String) (f : β → β) : List (String × β) → List (String × β)
  | [] => []
  | (k', v) :: rest => if k' = k then (k', f v) :: rest else (k', v) :: aupdate k f rest

/-- Python `row.get(k, d)`. -/
def rowGet (row : Row) (k d : String) : String := (alookup k row).getD d

/-- `YEAR_MAP` from the script: CSV column suffix to year key, in insertion
order. -/
def YEAR_MAP : List (String × String) :=
  [("90", "1990"), ("00", "2000"), ("10", "2010"), ("19", "2019"), ("22", "2022")]

/-- The CountryInfo record built from a country's first row (lines 47-52):
trimmed `region_wb`/`incomegroup` cells, empty normalized to `None`. -/
def infoOfRow (row : Row) : Info :=
  let region := pyStrip (rowGet row "region_wb" "")
  let incomegroup := pyStrip (rowGet row "incomegroup" "")
  { region := if region = "" then none else some region,
    incomegroup := if incomegroup = "" then none else some incomegroup }

/-- Lines 58-64: strip the `p_country` cell; if it starts with `"Contact "`,
replace every occurrence of `"Contact "` and parse the result, else parse the
stripped cell. -/
def parseDomestic (cell : String) : Except PyErr (Option Int) :=
  if pyStartsWith (pyStrip cell) "Contact " then
    parse_int_or_none (some (pyReplace (pyStrip cell) "Contact " ""))
  else
    parse_int_or_none (some (pyStrip cell))

/-- Parse one named cell of a row (missing and empty cells agree). -/
def cellParse (row : Row) (col : String) : Except PyErr (Option Int) :=
  parse_int_or_none (some (rowGet row col ""))

/-- Lines 71-85, one iteration of the `YEAR_MAP` loop for a row with parsed
domestic percentile `perc`: read the three year-suffixed cells, skip the
year when all three are absent, otherwise append the point to the year's
series (creating it first when needed). -/
def yearStep (row : Row) (perc : Int) (ytbl : YearTbl) (sy : String × String) :
    Except PyErr YearTbl :=
  match cellParse row ("p_global_" ++ sy.1) with
  | Except.error e => Except.error e
  | Except.ok gv =>
    match cellParse row ("p_region_" ++ sy.1) with
    | Except.error e => Except.error e
    | Except.ok rv =>
      match cellParse row ("p_income_" ++ sy.1) with
      | Except.error e => Except.error e
      | Except.ok iv =>
        if gv = none ∧ rv = none ∧ iv = none then Except.ok ytbl
        else
          Except.ok (aupdate sy.2 (fun s => s ++ [Point.mk perc gv rv iv])
            (if (alookup sy.2 ytbl).isSome then ytbl else ytbl ++ [(sy.2, [])]))

/-- Lines 46-52: insert the first-seen metadata record for `country` if the
key is not yet present. -/
def ciStep (ci : CtrInfo) (country : String) (row : Row) : CtrInfo :=
  if (alookup country ci).isSome then ci else ci ++ [(country, infoOfRow row)]

/-- Lines 54-55: make sure `raw_data` has an entry for `country`. -/
def rdStep (rd : RawData) (country : String) : RawData :=
  if (alookup country rd).isSome then rd else rd ++ [(country, ([] : YearTbl))]

/-- Lines 40-85, the body of the row loop: `row['country']` (a `KeyError`
when the column is missing), skip blank countries, record first-seen
metadata, create the country's `raw_data` entry, parse the domestic
percentile and run the year loop. -/
def processRow (st : RawData × CtrInfo) (row : Row) : Except PyErr (RawData × CtrInfo) :=
  match alookup "country" row with
  | none => Except.error (PyErr.keyError "country")
  | some cRaw =>
    if pyStrip cRaw = "" then Except.ok st
    else
      match parseDomestic (rowGet row "p_country" "") with
      | Except.error e => Except.error e
      | Except.ok none =>
        Except.ok (rdStep st.1 (pyStrip cRaw), ciStep st.2 (pyStrip cRaw) row)
      | Except.ok (some p) =>
        match YEAR_MAP.foldlM (yearStep row p)
            ((alookup (pyStrip cRaw) (rdStep st.1 (pyStrip cRaw))).getD []) with
        | Except.error e => Except.error e
        | Except.ok ytbl =>
          Except.ok (aupdate (pyStrip cRaw) (fun _ => ytbl) (rdStep st.1 (pyStrip cRaw)),
            ciStep st.2 (pyStrip cRaw) row)

/-- The full reading pass (lines 38-85) over the parsed CSV rows. -/
def runRows (rows : List Row) : Except PyErr (RawData × CtrInfo) :=
  rows.foldlM processRow ([], [])

/-- The sort key order of line 90. -/
abbrev pointLE (a b : Point) : Prop := a.percentile ≤ b.percentile

instance : IsTotal Point pointLE := ⟨fun a b => Int.le_total a.percentile b.percentile⟩

instance : IsTrans Point pointLE := ⟨fun _ _ _ => Int.le_trans⟩

/-- Line 90: Python's stable `list.sort(key=lambda x: x['percentile'])`.
A stable sort that is non-decreasing on the key is unique, so the embedding
uses insertion sort with ties kept in input order, which has exactly these
two properties (proved below). -/
def sortPoints (s : List Point) : List Point :=
  s.insertionSort pointLE

/-- Lines 93-98: drop the `region`/`incomegroup` keys holding `None`,
keeping dict key order. -/
def pruneInfo (i : Info) : InfoRec :=
  (match i.region with
    | some r => [("region", r)]
    | none => []) ++
  (match i.incomegroup with
    | some g => [("incomegroup", g)]
    | none => [])

/-- Lines 87-98: sort every series, prune every metadata record. -/
def postProcess (st : RawData × CtrInfo) : RawData × List (String × InfoRec) :=
  (st.1.map (fun e => (e.1, e.2.map (fun y => (y.1, sortPoints y.2)))),
   st.2.map (fun e => (e.1, pruneInfo e.2)))

/-- The whole data construction of `main` up to serialization. -/
def mainRun (rows : List Row) : Except PyErr (RawData × List (String × InfoRec)) :=
  (runRows rows).map postProcess

/-- The hexadecimal digit characters. -/
def hexChars : List Char := "0123456789abcdef".data

/-- The `i`-th hexadecimal digit character. -/
def hexDig (n : Nat) : Char := hexChars.getD n '0'

/-- Four-digit lowercase hex rendering used by JSON `\uXXXX` escapes. -/
def hex4 (n : Nat) : String :=
  ⟨[hexDig (n / 4096 % 16), hexDig (n / 256 % 16), hexDig (n / 16 % 16), hexDig (n % 16)]⟩

/-- How `json.dumps` (default `ensure_ascii=True`) renders one character of a
string: shorthand escapes, `\uXXXX` for other control and non-ASCII
characters (surrogate pairs beyond the BMP), the character itself
otherwise. -/
def escapeChar (c : Char) : String :=
  if c = '"' then "\\\""
  else if c = '\\' then "\\\\"
  else if c = '\n' then "\\n"
  else if c = '\r' then "\\r"
  else if c = '\t' then "\\t"
  else if c.toNat = 8 then "\\b"
  else if c.toNat = 12 then "\\f"
  else if c.toNat < 32 then "\\u" ++ hex4 c.toNat
  else if c.toNat < 127 then ⟨[c]⟩
  else if c.toNat < 65536 then "\\u" ++ hex4 c.toNat
  else
    "\\u" ++ hex4 (55296 + (c.toNat - 65536) / 1024) ++
      "\\u" ++ hex4 (56320 + (c.toNat - 65536) % 1024)

/-- Concatenation of a list of strings. -/
def strConcat : List String → String
  | [] => ""
  | s :: rest => s ++ strConcat rest

/-- A JSON string literal as `json.dumps` renders it. -/
def jsonStr (s : String) : String := "\"" ++ strConcat (s.data.map escapeChar) ++ "\""

/-- Fuel-driven worker for `natChars`; the value never exceeds the fuel, so
the fuel-exhausted arm is never reached. -/
def natCharsAux : Nat → Nat → List Char
  | _, 0 => []
  | 0, _ + 1 => []
  | fuel + 1, n + 1 => natCharsAux fuel ((n + 1) / 10) ++ [hexDig ((n + 1) % 10)]

/-- The decimal digits of a positive number (empty for zero). -/
def natChars (n : Nat) : List Char := natCharsAux n n

/-- Decimal rendering of an integer, as `json.dumps` (Python `repr`) emits
it. -/
def intStr (i : Int) : String :=
  if i = 0 then "0"
  else if i < 0 then "-" ++ ⟨natChars i.natAbs⟩
  else ⟨natChars i.natAbs⟩

/-- Comma-separated join, as the `','` item separator of `json.dumps`. -/
def commaJoin : List String → String
  | [] => ""
  | [s] => s
  | s :: t :: rest => s ++ "," ++ commaJoin (t :: rest)

/-- Compact JSON for one point dict, keys in insertion order. -/
def dumpsPoint (p : Point) : String :=
  "\x7b" ++ commaJoin
    (["\"percentile\":" ++ intStr p.percentile] ++
      (match p.global with
        | some v => ["\"global\":" ++ intStr v]
        | none => []) ++
      (match p.region with
        | some v => ["\"region\":" ++ intStr v]
        | none => []) ++
      (match p.income with
        | some v => ["\"income\":" ++ intStr v]
        | none => [])) ++ "\x7d"

/-- Compact JSON for a series. -/
def dumpsSeries (s : List Point) : String := "[" ++ commaJoin (s.map dumpsPoint) ++ "]"

/-- Compact JSON for a per-country year table. -/
def dumpsYearTbl (y : YearTbl) : String :=
  "\x7b" ++ commaJoin (y.map (fun e => jsonStr e.1 ++ ":" ++ dumpsSeries e.2)) ++ "\x7d"

/-- Compact JSON for `raw_data` (`json.dumps(raw_data, separators=(',',':'))`). -/
def dumpsRawData (rd : RawData) : String :=
  "\x7b" ++ commaJoin (rd.map (fun e => jsonStr e.1 ++ ":" ++ dumpsYearTbl e.2)) ++ "\x7d"

/-- Compact JSON for one pruned metadata record. -/
def dumpsInfoRec (r : InfoRec) : String :=
  "\x7b" ++ commaJoin (r.map (fun e => jsonStr e.1 ++ ":" ++ jsonStr e.2)) ++ "\x7d"

/-- Compact JSON for `countries_info` after pruning. -/
def dumpsCtrInfo (ci : List (String × InfoRec)) : String :=
  "\x7b" ++ commaJoin (ci.map (fun e => jsonStr e.1 ++ ":" ++ dumpsInfoRec e.2)) ++ "\x7d"

/-- Line 104: the full text written to `rawdata_extended.js`. -/
def buildOutput (rd : RawData) (ci : List (String × InfoRec)) : String :=
  "    const rawData = " ++ dumpsRawData rd ++ ";\n    const countriesInfo = " ++
    dumpsCtrInfo ci ++ ";\n"

/-- The artifact text produced by a run of `main` on the given rows (absent
when the run raises). -/
def mainOutput (rows : List Row) : Except PyErr String :=
  (mainRun rows).map (fun p => buildOutput p.1 p.2)

/-- Whether `pat` occurs as a contiguous segment of `l` (used to reason about
Python's replace-all semantics). -/
def hasOccur (pat : List Char) : List Char → Bool
  | [] => startsWithList pat []
  | c :: rest => startsWithList pat (c :: rest) || hasOccur pat rest

/-- The first row whose trimmed `country` cell equals `c`. -/
def firstRowFor (c : String) (rows : List Row) : Option Row :=
  rows.find? (fun row => (alookup "country" row).map pyStrip == some c)

/-- How one row extends the list of known country keys. -/
def ctryStep (acc : List String) (row : Row) : List String :=
  match alookup "country" row with
  | none => acc
  | some v => if pyStrip v = "" ∨ pyStrip v ∈ acc then acc else acc ++ [pyStrip v]

/-- The distinct non-blank trimmed country names in order of first
appearance. -/
def countriesInOrder (rows : List Row) : List String :=
  rows.foldl ctryStep []

/-- A row qualifies for a year suffix when its three year cells parse without
raising and not all three are absent. -/
def qualifies (row : Row) (suffix : String) : Bool :=
  match cellParse row ("p_global_" ++ suffix), cellParse row ("p_region_" ++ suffix),
      cellParse row ("p_income_" ++ suffix) with
  | Except.ok gv, Except.ok rv, Except.ok iv => !(gv == none && rv == none && iv == none)
  | _, _, _ => false

/-- Whether the row's domestic percentile parses (without raising) to a
value. -/
def domesticOk (row : Row) : Bool :=
  match parseDomestic (rowGet row "p_country" "") with
  | Except.ok (some _) => true
  | _ => false

/-- Year keys contributed by one row, appended in the fixed `YEAR_MAP` order
when qualifying and not yet present. -/
def yearKeysStep (row : Row) (acc : List String) : List String :=
  YEAR_MAP.foldl
    (fun a sy => if qualifies row sy.1 = true ∧ ¬ sy.2 ∈ a then a ++ [sy.2] else a) acc

/-- How one row transforms the (optional) year-key list of country `c`:
a row for `c` materializes the country entry, and contributes year keys when
its domestic percentile parses. -/
def yearKeysAcc (c : String) (acc : Option (List String)) (row : Row) :
    Option (List String) :=
  match alookup "country" row with
  | none => acc
  | some v =>
    if pyStrip v = c then
      if domesticOk row then some (yearKeysStep row (acc.getD []))
      else some (acc.getD [])
    else acc

/-- The year keys of country `c` in order of first qualifying contribution
(`none` when no row mentions `c`). -/
def yearKeysOrder (c : String) (rows : List Row) : Option (List String) :=
  rows.foldl (yearKeysAcc c) none

/-- The overflow bound written with shallow nesting equals `2^1024 - 2^970`. -/
theorem overflowBoundInt_eq : overflowBoundInt = 2 ^ 1024 - 2 ^ 970 := by
  unfold overflowBoundInt
  rw [← pow_mul, ← pow_mul, ← pow_add]

/-! ### Association-list facts -/

theorem alookup_append {β : Type} (k : String) (l m : List (String × β)) :
    alookup k (l ++ m) = (alookup k l).or (alookup k m) := by
  induction l with
  | nil => simp [alookup]
  | cons e rest ih =>
    obtain ⟨k', v⟩ := e
    by_cases h : k' = k <;> simp [alookup, h, ih]

theorem akeys_cons {β : Type} (e : String × β) (l : List (String × β)) :
    akeys (e :: l) = e.1 :: akeys l := rfl

theorem alookup_aupdate {β : Type} (k j : String) (f : β → β) (l : List (String × β)) :
    alookup j (aupdate k f l) =
      if j = k then (alookup k l).map f else alookup j l := by
  induction l with
  | nil => simp [alookup, aupdate]
  | cons e rest ih =>
    obtain ⟨k', v⟩ := e
    by_cases hk : k' = k
    · subst hk
      by_cases hj : j = k'
      · subst hj
        simp [alookup, aupdate]
      · simp [alookup, aupdate, hj, Ne.symm hj]
    · by_cases hj : j = k
      · subst hj
        have hkj : ¬ k' = j := hk
        simp [alookup, aupdate, hk, hkj, ih]
      · by_cases he : k' = j
        · subst he
          simp [alookup, aupdate, hk, hj, ih]
        · simp [alookup, aupdate, hk, hj, he, ih]

theorem akeys_aupdate {β : Type} (k : String) (f : β → β) (l : List (String × β)) :
    akeys (aupdate k f l) = akeys l := by
  induction l with
  | nil => rfl
  | cons e rest ih =>
    obtain ⟨k', v⟩ := e
    by_cases h : k' = k
    · simp [aupdate, h, akeys_cons]
    · simp only [aupdate, if_neg h, akeys_cons, ih]

theorem akeys_append {β : Type} (l m : List (String × β)) :
    akeys (l ++ m) = akeys l ++ akeys m := by
  simp [akeys]

theorem alookup_isSome_iff {β : Type} (k : String) (l : List (String × β)) :
    (alookup k l).isSome = true ↔ k ∈ akeys l := by
  induction l with
  | nil => simp [alookup, akeys]
  | cons e rest ih =>
    obtain ⟨k', v⟩ := e
    by_cases h : k' = k <;> simp [alookup, akeys, h, ih]
    exact fun he => absurd he.symm h

theorem alookup_map {β γ : Type} (k : String) (g : β → γ) (l : List (String × β)) :
    alookup k (l.map (fun e => (e.1, g e.2))) = (alookup k l).map g := by
  induction l with
  | nil => rfl
  | cons e rest ih =>
    obtain ⟨k', v⟩ := e
    by_cases h : k' = k <;> simp [alookup, h, ih]

theorem akeys_map {β γ : Type} (g : β → γ) (l : List (String × β)) :
    akeys (l.map (fun e => (e.1, g e.2))) = akeys l := by
  simp [akeys]

/-! ### Fold facts for the `Except` monad -/

theorem except_bind_error {ε σ σ' : Type} (e : ε) (g : σ → Except ε σ') :
    ((Except.error e : Except ε σ) >>= g) = Except.error e := rfl

theorem except_bind_ok {ε σ σ' : Type} (t : σ) (g : σ → Except ε σ') :
    ((Except.ok t : Except ε σ) >>= g) = g t := rfl

theorem foldlM_except_cons_ok {σ α ε : Type} (f : σ → α → Except ε σ)
    (a : α) (l : List α) (s s' : σ)
    (h : (a :: l).foldlM f s = Except.ok s') :
    ∃ t, f s a = Except.ok t ∧ l.foldlM f t = Except.ok s' := by
  rw [List.foldlM_cons] at h
  cases hfa : f s a with
  | error e =>
    rw [hfa, except_bind_error] at h
    exact Except.noConfusion h
  | ok t =>
    rw [hfa, except_bind_ok] at h
    exact ⟨t, rfl, h⟩

theorem foldlM_except_inv {σ α ε : Type} (f : σ → α → Except ε σ) (P : σ → Prop)
    (l : List α) :
    ∀ (s s' : σ), (∀ t a t', a ∈ l → P t → f t a = Except.ok t' → P t') →
      P s → l.foldlM f s = Except.ok s' → P s' := by
  induction l with
  | nil =>
    intro s s' _ hP h
    simp only [List.foldlM_nil] at h
    cases h
    exact hP
  | cons a rest ih =>
    intro s s' hstep hP h
    obtain ⟨t, hfa, hrest⟩ := foldlM_except_cons_ok f a rest s s' h
    exact ih t s' (fun u b u' hb => hstep u b u' (List.mem_cons_of_mem a hb))
      (hstep s a t (List.mem_cons_self a rest) hP hfa) hrest

/-! ### Case analyses of the two step functions -/

theorem yearStep_ok (row : Row) (p : Int) (ytbl ytbl' : YearTbl) (sy : String × String)
    (h : yearStep row p ytbl sy = Except.ok ytbl') :
    ∃ gv rv iv,
      cellParse row ("p_global_" ++ sy.1) = Except.ok gv ∧
      cellParse row ("p_region_" ++ sy.1) = Except.ok rv ∧
      cellParse row ("p_income_" ++ sy.1) = Except.ok iv ∧
      ((gv = none ∧ rv = none ∧ iv = none ∧ ytbl' = ytbl) ∨
        (¬(gv = none ∧ rv = none ∧ iv = none) ∧
          ytbl' = aupdate sy.2 (fun s => s ++ [Point.mk p gv rv iv])
            (if (alookup sy.2 ytbl).isSome then ytbl else ytbl ++ [(sy.2, [])]))) := by
  unfold yearStep at h
  split at h
  · exact Except.noConfusion h
  · rename_i gv hg
    split at h
    · exact Except.noConfusion h
    · rename_i rv hr
      split at h
      · exact Except.noConfusion h
      · rename_i iv hi
        split at h
        · rename_i hall
          exact ⟨gv, rv, iv, hg, hr, hi,
            Or.inl ⟨hall.1, hall.2.1, hall.2.2, (Except.ok.inj h).symm⟩⟩
        · rename_i hall
          exact ⟨gv, rv, iv, hg, hr, hi, Or.inr ⟨hall, (Except.ok.inj h).symm⟩⟩

theorem processRow_ok (st st' : RawData × CtrInfo) (row : Row)
    (h : processRow st row = Except.ok st') :
    ∃ cRaw, alookup "country" row = some cRaw ∧
      ((pyStrip cRaw = "" ∧ st' = st) ∨
        (pyStrip cRaw ≠ "" ∧
          ((parseDomestic (rowGet row "p_country" "") = Except.ok none ∧
            st' = (rdStep st.1 (pyStrip cRaw), ciStep st.2 (pyStrip cRaw) row)) ∨
           (∃ p ytbl, parseDomestic (rowGet row "p_country" "") = Except.ok (some p) ∧
             YEAR_MAP.foldlM (yearStep row p)
               ((alookup (pyStrip cRaw) (rdStep st.1 (pyStrip cRaw))).getD []) =
                 Except.ok ytbl ∧
             st' = (aupdate (pyStrip cRaw) (fun _ => ytbl) (rdStep st.1 (pyStrip cRaw)),
               ciStep st.2 (pyStrip cRaw) row))))) := by
  unfold processRow at h
  split at h
  · exact Except.noConfusion h
  · rename_i cRaw hc
    refine ⟨cRaw, hc, ?_⟩
    split at h
    · rename_i hblank
      exact Or.inl ⟨hblank, (Except.ok.inj h).symm⟩
    · rename_i hblank
      refine Or.inr ⟨hblank, ?_⟩
      split at h
      · exact Except.noConfusion h
      · rename_i hd
        exact Or.inl ⟨hd, (Except.ok.inj h).symm⟩
      · rename_i p hd
        split at h
        · exact Except.noConfusion h
        · rename_i ytbl hy
          exact Or.inr ⟨p, ytbl, hd, hy, (Except.ok.inj h).symm⟩

/-! ### Lookups around `rdStep`, `ciStep` and the year fold -/

theorem alookup_singleton {β : Type} (k j : String) (v : β) :
    alookup j [(k, v)] = if k = j then some v else none := by
  simp [alookup]

theorem alookup_rdStep (rd : RawData) (c0 c : String) :
    alookup c (rdStep rd c0) = (alookup c rd).or (if c0 = c then some [] else none) := by
  unfold rdStep
  cases hl : alookup c0 rd with
  | some y0 =>
    simp only [hl, Option.isSome_some, if_true]
    by_cases hc : c0 = c
    · subst hc
      rw [hl, if_pos rfl, Option.or_some]
    · rw [if_neg hc, Option.or_none]
  | none =>
    simp only [hl, Option.isSome_none, Bool.false_eq_true, if_false]
    rw [alookup_append, alookup_singleton]

theorem alookup_ciStep (ci : CtrInfo) (c0 c : String) (row : Row) :
    alookup c (ciStep ci c0 row) =
      (alookup c ci).or (if c0 = c then some (infoOfRow row) else none) := by
  unfold ciStep
  cases hl : alookup c0 ci with
  | some i0 =>
    simp only [hl, Option.isSome_some, if_true]
    by_cases hc : c0 = c
    · subst hc
      rw [hl, if_pos rfl, Option.or_some]
    · rw [if_neg hc, Option.or_none]
  | none =>
    simp only [hl, Option.isSome_none, Bool.false_eq_true, if_false]
    rw [alookup_append, alookup_singleton]

/-- In the year-fold update branch the looked-up series decomposes into old
points plus the single appended point. -/
theorem yearStep_update_lookup (t : YearTbl) (sy : String × String) (pt : Point)
    (y : String) (s : List Point)
    (hs : alookup y (aupdate sy.2 (fun s => s ++ [pt])
      (if (alookup sy.2 t).isSome then t else t ++ [(sy.2, [])])) = some s) :
    (alookup y t = some s) ∨
      (y = sy.2 ∧ ∃ s0, s = s0 ++ [pt] ∧ (alookup sy.2 t = some s0 ∨ s0 = [])) := by
  rw [alookup_aupdate] at hs
  by_cases hy : y = sy.2
  · rw [if_pos hy] at hs
    cases hl : alookup sy.2 t with
    | some s0 =>
      have hbase : (if (alookup sy.2 t).isSome then t else t ++ [(sy.2, [])]) = t := by
        rw [hl]; rfl
      rw [hbase, hl, Option.map_some'] at hs
      exact Or.inr ⟨hy, s0, (Option.some.inj hs).symm, Or.inl rfl⟩
    | none =>
      have hbase : (if (alookup sy.2 t).isSome then t else t ++ [(sy.2, [])]) =
          t ++ [(sy.2, [])] := by rw [hl]; rfl
      rw [hbase, alookup_append, alookup_singleton, if_pos rfl, hl, Option.none_or,
        Option.map_some'] at hs
      exact Or.inr ⟨hy, [], (Option.some.inj hs).symm, Or.inr rfl⟩
  · rw [if_neg hy] at hs
    by_cases hsome : (alookup sy.2 t).isSome = true
    · rw [if_pos hsome] at hs
      exact Or.inl hs
    · rw [if_neg hsome, alookup_append, alookup_singleton,
        if_neg (fun he => hy he.symm), Option.or_none] at hs
      exact Or.inl hs

/-! ### Series invariants through the folds -/

theorem yearFold_series (row : Row) (p : Int) (H : List Point → Prop)
    (hnew : ∀ s0 gv rv iv, ¬(gv = none ∧ rv = none ∧ iv = none) →
      (H s0 ∨ s0 = []) → H (s0 ++ [Point.mk p gv rv iv]))
    (l : List (String × String)) (ytbl ytbl' : YearTbl)
    (h : l.foldlM (yearStep row p) ytbl = Except.ok ytbl')
    (h0 : ∀ y s, alookup y ytbl = some s → H s) :
    ∀ y s, alookup y ytbl' = some s → H s := by
  refine foldlM_except_inv (yearStep row p)
    (fun t => ∀ y s, alookup y t = some s → H s) l ytbl ytbl' ?_ h0 h
  intro t sy t' _ hP hstep
  obtain ⟨gv, rv, iv, _, _, _, hcase⟩ := yearStep_ok row p t t' sy hstep
  rcases hcase with ⟨_, _, _, rfl⟩ | ⟨hne, rfl⟩
  · exact hP
  · intro y s hs
    rcases yearStep_update_lookup t sy (Point.mk p gv rv iv) y s hs with
      hold | ⟨_, s0, rfl, hs0⟩
    · exact hP y s hold
    · refine hnew s0 gv rv iv hne ?_
      rcases hs0 with hs0 | rfl
      · exact Or.inl (hP sy.2 s0 hs0)
      · exact Or.inr rfl

theorem processRow_series (H : List Point → Prop) (st st' : RawData × CtrInfo) (row : Row)
    (h : processRow st row = Except.ok st')
    (hnew : ∀ p s0 gv rv iv,
      parseDomestic (rowGet row "p_country" "") = Except.ok (some p) →
      ¬(gv = none ∧ rv = none ∧ iv = none) →
      (H s0 ∨ s0 = []) → H (s0 ++ [Point.mk p gv rv iv]))
    (hP : ∀ c ytbl y s, alookup c st.1 = some ytbl → alookup y ytbl = some s → H s) :
    ∀ c ytbl y s, alookup c st'.1 = some ytbl → alookup y ytbl = some s → H s := by
  obtain ⟨cRaw, hc, hcase⟩ := processRow_ok st st' row h
  rcases hcase with ⟨_, rfl⟩ | ⟨hne, hcase⟩
  · exact hP
  rcases hcase with ⟨hd, rfl⟩ | ⟨p, ytblN, hd, hfold, rfl⟩
  · intro c ytbl y s hlc hly
    rw [alookup_rdStep] at hlc
    cases hl : alookup c st.1 with
    | some y0 =>
      rw [hl, Option.or_some] at hlc
      exact hP c y0 y s hl (by rw [Option.some.inj hlc]; exact hly)
    | none =>
      rw [hl, Option.none_or] at hlc
      by_cases hcc : pyStrip cRaw = c
      · rw [if_pos hcc] at hlc
        rw [← Option.some.inj hlc] at hly
        exact Option.noConfusion hly
      · rw [if_neg hcc] at hlc
        exact Option.noConfusion hlc
  · intro c ytbl y s hlc hly
    rw [alookup_aupdate] at hlc
    by_cases hcc : c = pyStrip cRaw
    · rw [if_pos hcc] at hlc
      cases hbase : alookup (pyStrip cRaw) (rdStep st.1 (pyStrip cRaw)) with
      | none =>
        rw [hbase] at hlc
        exact Option.noConfusion hlc
      | some base =>
        rw [hbase] at hlc
        simp only [Option.map_some'] at hlc
        have hytbl : ytbl = ytblN := (Option.some.inj hlc).symm
        subst hytbl
        refine yearFold_series row p H
          (fun s0 gv rv iv hne3 hold => hnew p s0 gv rv iv hd hne3 hold) YEAR_MAP
          ((alookup (pyStrip cRaw) (rdStep st.1 (pyStrip cRaw))).getD []) ytbl hfold
          ?_ y s hly
        rw [hbase]
        rw [alookup_rdStep] at hbase
        cases hl : alookup (pyStrip cRaw) st.1 with
        | some y0 =>
          rw [hl, Option.or_some] at hbase
          intro y' s' hl'
          rw [Option.some.inj hbase] at hl
          exact hP (pyStrip cRaw) base y' s' hl hl'
        | none =>
          rw [hl, Option.none_or, if_pos rfl] at hbase
          rw [← Option.some.inj hbase]
          intro y' s' hl'
          exact Option.noConfusion hl'
    · rw [if_neg hcc] at hlc
      rw [alookup_rdStep] at hlc
      cases hl : alookup c st.1 with
      | some y0 =>
        rw [hl, Option.or_some] at hlc
        exact hP c y0 y s hl (by rw [Option.some.inj hlc]; exact hly)
      | none =>
        rw [hl, Option.none_or] at hlc
        by_cases hc0 : pyStrip cRaw = c
        · exact absurd hc0.symm hcc
        · rw [if_neg hc0] at hlc
          exact Option.noConfusion hlc

theorem runRows_series (H : List Point → Prop) (rows : List Row) (st : RawData × CtrInfo)
    (h : runRows rows = Except.ok st)
    (hnew : ∀ row ∈ rows, ∀ p s0 gv rv iv,
      parseDomestic (rowGet row "p_country" "") = Except.ok (some p) →
      ¬(gv = none ∧ rv = none ∧ iv = none) →
      (H s0 ∨ s0 = []) → H (s0 ++ [Point.mk p gv rv iv])) :
    ∀ c ytbl y s, alookup c st.1 = some ytbl → alookup y ytbl = some s → H s := by
  refine foldlM_except_inv processRow
    (fun t => ∀ c ytbl y s, alookup c t.1 = some ytbl → alookup y ytbl = some s → H s)
    rows ([], []) st ?_ ?_ h
  · intro t row t' hrow hP hstep
    exact processRow_series H t t' row hstep (hnew row hrow) hP
  · intro c ytbl y s hlc
    exact absurd hlc (by simp [alookup])

theorem runRows_points (G : Point → Prop) (rows : List Row) (st : RawData × CtrInfo)
    (h : runRows rows = Except.ok st)
    (hnew : ∀ row ∈ rows, ∀ p gv rv iv,
      parseDomestic (rowGet row "p_country" "") = Except.ok (some p) →
      ¬(gv = none ∧ rv = none ∧ iv = none) → G (Point.mk p gv rv iv)) :
    ∀ c ytbl y s, alookup c st.1 = some ytbl → alookup y ytbl = some s →
      ∀ pt ∈ s, G pt := by
  refine runRows_series (fun s => ∀ pt ∈ s, G pt) rows st h ?_
  intro row hrow p s0 gv rv iv hd hne3 hold pt hpt
  rcases List.mem_append.mp hpt with hmem | hmem
  · rcases hold with hold | rfl
    · exact hold pt hmem
    · exact absurd hmem (List.not_mem_nil pt)
  · rw [List.mem_singleton.mp hmem]
    exact hnew row hrow p gv rv iv hd hne3

theorem runRows_nonempty (rows : List Row) (st : RawData × CtrInfo)
    (h : runRows rows = Except.ok st) :
    ∀ c ytbl y s, alookup c st.1 = some ytbl → alookup y ytbl = some s → s ≠ [] := by
  refine runRows_series (fun s => s ≠ []) rows st h ?_
  intro row _ p s0 gv rv iv _ _ _
  simp

/-! ### Sorting facts -/

theorem sortPoints_sorted (s : List Point) :
    (sortPoints s).Pairwise (fun a b => a.percentile ≤ b.percentile) :=
  List.sorted_insertionSort pointLE s

theorem sortPoints_perm (s : List Point) : (sortPoints s).Perm s :=
  List.perm_insertionSort pointLE s

theorem mem_sortPoints (pt : Point) (s : List Point) : pt ∈ sortPoints s ↔ pt ∈ s :=
  List.mem_insertionSort pointLE

theorem sortPoints_filter (s : List Point) (k : Int) :
    (sortPoints s).filter (fun pt => decide (pt.percentile = k)) =
      s.filter (fun pt => decide (pt.percentile = k)) := by
  have hmem : ∀ pt ∈ s.filter (fun pt => decide (pt.percentile = k)),
      pt.percentile = k := by
    intro pt hpt
    exact of_decide_eq_true (List.mem_filter.mp hpt).2
  have hpw : (s.filter (fun pt => decide (pt.percentile = k))).Pairwise pointLE := by
    refine List.pairwise_of_forall_mem_list ?_
    intro a ha b hb
    show a.percentile ≤ b.percentile
    rw [hmem a ha, hmem b hb]
  have hsub : List.Sublist (s.filter (fun pt => decide (pt.percentile = k)))
      (sortPoints s) :=
    List.sublist_insertionSort hpw (List.filter_sublist s)
  have hsub2 : List.Sublist (s.filter (fun pt => decide (pt.percentile = k)))
      ((sortPoints s).filter (fun pt => decide (pt.percentile = k))) := by
    have h2 := List.Sublist.filter (fun pt => decide (pt.percentile = k)) hsub
    rwa [List.filter_filter, (by funext pt; simp :
      (fun pt : Point => (decide (pt.percentile = k) && decide (pt.percentile = k))) =
        (fun pt : Point => decide (pt.percentile = k)))] at h2
  have hlen : ((sortPoints s).filter (fun pt => decide (pt.percentile = k))).length =
      (s.filter (fun pt => decide (pt.percentile = k))).length :=
    ((sortPoints_perm s).filter _).length_eq
  exact (List.Sublist.eq_of_length hsub2 hlen.symm).symm

/-! ### Decomposing `mainRun` -/

theorem mainRun_ok (rows : List Row) (out : RawData × List (String × InfoRec)) :
    mainRun rows = Except.ok out ↔
      ∃ st, runRows rows = Except.ok st ∧ out = postProcess st := by
  unfold mainRun
  cases h : runRows rows with
  | error e =>
    constructor
    · intro h2
      exact Except.noConfusion h2
    · rintro ⟨st, hst, _⟩
      exact Except.noConfusion hst
  | ok st =>
    constructor
    · intro h2
      exact ⟨st, rfl, (Except.ok.inj h2).symm⟩
    · rintro ⟨st2, hst, rfl⟩
      cases Except.ok.inj hst
      rfl

theorem postProcess_rd_lookup (st : RawData × CtrInfo) (c : String) :
    alookup c (postProcess st).1 =
      (alookup c st.1).map (fun ytbl => ytbl.map (fun e => (e.1, sortPoints e.2))) :=
  alookup_map c _ st.1

theorem postProcess_ytbl_lookup (ytbl : YearTbl) (y : String) :
    alookup y (ytbl.map (fun e => (e.1, sortPoints e.2))) =
      (alookup y ytbl).map sortPoints :=
  alookup_map y _ ytbl

theorem postProcess_ci_lookup (st : RawData × CtrInfo) (c : String) :
    alookup c (postProcess st).2 = (alookup c st.2).map pruneInfo :=
  alookup_map c _ st.2

/-- Every series of the final table is the stable sort of the corresponding
accumulated series. -/
theorem mainRun_series (rows : List Row) (out : RawData × List (String × InfoRec))
    (st : RawData × CtrInfo) (c y : String) (ytbl' : YearTbl) (s' : List Point)
    (hout : mainRun rows = Except.ok out) (hst : runRows rows = Except.ok st)
    (hc : alookup c out.1 = some ytbl') (hy : alookup y ytbl' = some s') :
    ∃ ytbl s, alookup c st.1 = some ytbl ∧ alookup y ytbl = some s ∧
      s' = sortPoints s := by
  obtain ⟨st2, hst2, rfl⟩ := (mainRun_ok rows out).mp hout
  rw [hst2] at hst
  cases Except.ok.inj hst
  rw [postProcess_rd_lookup] at hc
  cases hl : alookup c st.1 with
  | none =>
    rw [hl] at hc
    exact Option.noConfusion hc
  | some ytbl =>
    rw [hl, Option.map_some'] at hc
    rw [← Option.some.inj hc, postProcess_ytbl_lookup] at hy
    cases hl2 : alookup y ytbl with
    | none =>
      rw [hl2] at hy
      exact Option.noConfusion hy
    | some s =>
      rw [hl2, Option.map_some'] at hy
      exact ⟨ytbl, s, rfl, hl2, (Option.some.inj hy).symm⟩

/-! ### First-seen metadata -/

theorem runRows_ci_lookup (rows : List Row) :
    ∀ st0 st', rows.foldlM processRow st0 = Except.ok st' →
      ∀ c, c ≠ "" →
        alookup c st'.2 = (alookup c st0.2).or ((firstRowFor c rows).map infoOfRow) := by
  induction rows with
  | nil =>
    intro st0 st' h c _
    simp only [List.foldlM_nil] at h
    cases Except.ok.inj h
    simp only [firstRowFor, List.find?_nil, Option.map_none', Option.or_none]
  | cons row rest ih =>
    intro st0 st' h c hcne
    obtain ⟨st1, hstep, hrest⟩ := foldlM_except_cons_ok processRow row rest st0 st' h
    obtain ⟨cRaw, hcr, hcase⟩ := processRow_ok st0 st1 row hstep
    rcases hcase with ⟨hblank, rfl⟩ | ⟨hne, hcase⟩
    · have hmatch : ((alookup "country" row).map pyStrip == some c) = false := by
        rw [hcr, Option.map_some', hblank]
        exact beq_eq_false_iff_ne.mpr (fun he => hcne (Option.some.inj he).symm)
      have hfr : firstRowFor c (row :: rest) = firstRowFor c rest := by
        unfold firstRowFor
        simp only [List.find?_cons, hmatch]
      rw [hfr]
      exact ih _ st' hrest c hcne
    · have hci1 : st1.2 = ciStep st0.2 (pyStrip cRaw) row := by
        rcases hcase with ⟨_, rfl⟩ | ⟨p, ytbl, _, _, rfl⟩ <;> rfl
      rw [ih st1 st' hrest c hcne, hci1, alookup_ciStep]
      by_cases hc : pyStrip cRaw = c
      · have hmatch : ((alookup "country" row).map pyStrip == some c) = true := by
          rw [hcr, Option.map_some', hc]
          exact beq_self_eq_true (some c)
        have hfr : firstRowFor c (row :: rest) = some row := by
          unfold firstRowFor
          simp only [List.find?_cons, hmatch]
        rw [hfr, if_pos hc, Option.map_some', Option.or_assoc, Option.or_some]
      · have hmatch : ((alookup "country" row).map pyStrip == some c) = false := by
          rw [hcr, Option.map_some']
          exact beq_eq_false_iff_ne.mpr (fun he => hc (Option.some.inj he))
        have hfr : firstRowFor c (row :: rest) = firstRowFor c rest := by
          unfold firstRowFor
          simp only [List.find?_cons, hmatch]
        rw [hfr, if_neg hc, Option.or_none]

/-! ### Metadata value invariants -/

theorem runRows_info (rows : List Row) (st : RawData × CtrInfo)
    (h : runRows rows = Except.ok st) :
    ∀ c info, alookup c st.2 = some info →
      (∀ r, info.region = some r → r ≠ "") ∧
      (∀ g, info.incomegroup = some g → g ≠ "") := by
  refine foldlM_except_inv processRow
    (fun t => ∀ c info, alookup c t.2 = some info →
      (∀ r, info.region = some r → r ≠ "") ∧
      (∀ g, info.incomegroup = some g → g ≠ "")) rows ([], []) st ?_ ?_ h
  · intro t row t' _ hP hstep
    obtain ⟨cRaw, _, hcase⟩ := processRow_ok t t' row hstep
    have hinfo : (∀ r, (infoOfRow row).region = some r → r ≠ "") ∧
        (∀ g, (infoOfRow row).incomegroup = some g → g ≠ "") := by
      constructor
      · intro r hr
        unfold infoOfRow at hr
        simp only at hr
        split at hr
        · exact Option.noConfusion hr
        · rename_i hne0
          rw [← Option.some.inj hr]
          exact hne0
      · intro g hg
        unfold infoOfRow at hg
        simp only at hg
        split at hg
        · exact Option.noConfusion hg
        · rename_i hne0
          rw [← Option.some.inj hg]
          exact hne0
    rcases hcase with ⟨_, rfl⟩ | ⟨hne, hcase⟩
    · exact hP
    · have hci1 : t'.2 = ciStep t.2 (pyStrip cRaw) row := by
        rcases hcase with ⟨_, rfl⟩ | ⟨p, ytbl, _, _, rfl⟩ <;> rfl
      intro c info hli
      rw [hci1, alookup_ciStep] at hli
      cases hl : alookup c t.2 with
      | some i0 =>
        rw [hl, Option.or_some] at hli
        rw [← Option.some.inj hli]
        exact hP c i0 hl
      | none =>
        rw [hl, Option.none_or] at hli
        by_cases hcc : pyStrip cRaw = c
        · rw [if_pos hcc] at hli
          rw [← Option.some.inj hli]
          exact hinfo
        · rw [if_neg hcc] at hli
          exact Option.noConfusion hli
  · intro c info hli
    exact absurd hli (by simp [alookup])

/-! ### Facts about replace-all and the `Contact` arm -/

theorem startsWithList_append (p l : List Char) : startsWithList p (p ++ l) = true := by
  induction p with
  | nil => rfl
  | cons c cs ih => simp [startsWithList, ih]

theorem replaceListAux_not_occur (pat rep : List Char) :
    ∀ (t : List Char) (fuel : Nat), hasOccur pat t = false →
      replaceListAux pat rep fuel t = t := by
  intro t
  induction t with
  | nil => intro fuel _; cases fuel <;> rfl
  | cons c rest ih =>
    intro fuel hocc
    unfold hasOccur at hocc
    rw [Bool.or_eq_false_iff] at hocc
    cases fuel with
    | zero => rfl
    | succ fuel =>
      unfold replaceListAux
      rw [if_neg (fun hand => by rw [hocc.1] at hand; exact Bool.noConfusion hand.2)]
      rw [ih fuel hocc.2]

theorem replaceList_anchor (pat rep t : List Char) (hne : pat ≠ [])
    (hocc : hasOccur pat t = false) :
    replaceList pat rep (pat ++ t) = rep ++ t := by
  cases pat with
  | nil => exact absurd rfl hne
  | cons p ps =>
    show replaceListAux (p :: ps) rep ((p :: ps) ++ t).length ((p :: ps) ++ t) = rep ++ t
    simp only [List.cons_append, List.length_cons]
    unfold replaceListAux
    rw [if_pos ⟨List.cons_ne_nil p ps, by
      show startsWithList (p :: ps) ((p :: ps) ++ t) = true
      exact startsWithList_append (p :: ps) t⟩]
    have hlen : (p :: ps).length - 1 = ps.length := by simp
    rw [hlen, List.drop_left, replaceListAux_not_occur (p :: ps) rep t _ hocc]

/-! ### The serializer emits no line breaks inside values -/

theorem hexDig_mem (n : Nat) : hexDig n ∈ hexChars := by
  unfold hexDig List.getD
  cases h : hexChars.get? n with
  | none => decide
  | some c =>
    simp only [Option.getD_some]
    exact List.get?_mem h

theorem hex4_no_newline (n : Nat) : '\n' ∉ (hex4 n).data := by
  intro h
  have h4 : (hex4 n).data = [hexDig (n / 4096 % 16), hexDig (n / 256 % 16),
      hexDig (n / 16 % 16), hexDig (n % 16)] := rfl
  rw [h4] at h
  simp only [List.mem_cons, List.not_mem_nil, or_false] at h
  have hmem : '\n' ∈ hexChars := by
    rcases h with h | h | h | h <;> (rw [h]; exact hexDig_mem _)
  exact absurd hmem (by decide)

theorem escapeChar_no_newline (c : Char) : '\n' ∉ (escapeChar c).data := by
  intro h
  unfold escapeChar at h
  split at h
  · exact absurd h (by decide)
  · split at h
    · exact absurd h (by decide)
    · split at h
      · exact absurd h (by decide)
      · split at h
        · exact absurd h (by decide)
        · split at h
          · exact absurd h (by decide)
          · split at h
            · exact absurd h (by decide)
            · split at h
              · exact absurd h (by decide)
              · split at h
                · rw [String.data_append] at h
                  rcases List.mem_append.mp h with h | h
                  · exact absurd h (by decide)
                  · exact hex4_no_newline _ h
                · split at h
                  · rename_i hge32 _
                    have hc : '\n' = c := List.mem_singleton.mp h
                    rw [← hc] at hge32
                    exact hge32 (by decide)
                  · split at h
                    · rw [String.data_append] at h
                      rcases List.mem_append.mp h with h | h
                      · exact absurd h (by decide)
                      · exact hex4_no_newline _ h
                    · rw [String.data_append, String.data_append,
                        String.data_append] at h
                      rcases List.mem_append.mp h with h | h
                      · rcases List.mem_append.mp h with h | h
                        · rcases List.mem_append.mp h with h | h
                          · exact absurd h (by decide)
                          · exact hex4_no_newline _ h
                        · exact absurd h (by decide)
                      · exact hex4_no_newline _ h

theorem strConcat_no_newline (L : List String) (hL : ∀ s ∈ L, '\n' ∉ s.data) :
    '\n' ∉ (strConcat L).data := by
  induction L with
  | nil => decide
  | cons s rest ih =>
    intro h
    unfold strConcat at h
    rw [String.data_append] at h
    rcases List.mem_append.mp h with h | h
    · exact hL s (List.mem_cons_self s rest) h
    · exact ih (fun u hu => hL u (List.mem_cons_of_mem s hu)) h

theorem jsonStr_no_newline (s : String) : '\n' ∉ (jsonStr s).data := by
  intro h
  unfold jsonStr at h
  rw [String.data_append, String.data_append] at h
  rcases List.mem_append.mp h with h | h
  · rcases List.mem_append.mp h with h | h
    · exact absurd h (by decide)
    · refine strConcat_no_newline _ ?_ h
      intro u hu
      obtain ⟨ch, _, rfl⟩ := List.mem_map.mp hu
      exact escapeChar_no_newline ch
  · exact absurd h (by decide)

theorem natCharsAux_digits (fuel : Nat) :
    ∀ n c, c ∈ natCharsAux fuel n → c ∈ hexChars := by
  induction fuel with
  | zero =>
    intro n c h
    cases n with
    | zero => exact absurd h (List.not_mem_nil c)
    | succ m => exact absurd h (List.not_mem_nil c)
  | succ fuel ih =>
    intro n c h
    cases n with
    | zero => exact absurd h (List.not_mem_nil c)
    | succ m =>
      unfold natCharsAux at h
      rcases List.mem_append.mp h with h | h
      · exact ih _ c h
      · rw [List.mem_singleton.mp h]
        exact hexDig_mem _

theorem intStr_no_newline (i : Int) : '\n' ∉ (intStr i).data := by
  intro h
  unfold intStr at h
  split at h
  · exact absurd h (by decide)
  · split at h
    · rw [String.data_append] at h
      rcases List.mem_append.mp h with h | h
      · exact absurd h (by decide)
      · have : '\n' ∈ hexChars := natCharsAux_digits _ _ '\n' h
        exact absurd this (by decide)
    · have : '\n' ∈ hexChars := natCharsAux_digits _ _ '\n' h
      exact absurd this (by decide)

theorem commaJoin_no_newline (L : List String) (hL : ∀ s ∈ L, '\n' ∉ s.data) :
    '\n' ∉ (commaJoin L).data := by
  induction L with
  | nil => decide
  | cons s rest ih =>
    cases rest with
    | nil => exact hL s (List.mem_cons_self s [])
    | cons t rest2 =>
      intro h
      unfold commaJoin at h
      rw [String.data_append, String.data_append] at h
      rcases List.mem_append.mp h with h | h
      · rcases List.mem_append.mp h with h | h
        · exact hL s (List.mem_cons_self s (t :: rest2)) h
        · exact absurd h (by decide)
      · exact ih (fun u hu => hL u (List.mem_cons_of_mem s hu)) h

theorem dumpsPoint_no_newline (p : Point) : '\n' ∉ (dumpsPoint p).data := by
  intro h
  unfold dumpsPoint at h
  rw [String.data_append, String.data_append] at h
  rcases List.mem_append.mp h with h | h
  · rcases List.mem_append.mp h with h | h
    · exact absurd h (by decide)
    · refine commaJoin_no_newline _ ?_ h
      intro u hu
      rcases List.mem_append.mp hu with hu | hu
      · rcases List.mem_append.mp hu with hu | hu
        · rcases List.mem_append.mp hu with hu | hu
          · rw [List.mem_singleton.mp hu]
            intro hx
            rw [String.data_append] at hx
            rcases List.mem_append.mp hx with hx | hx
            · exact absurd hx (by decide)
            · exact intStr_no_newline _ hx
          · cases hg : p.global with
            | none => rw [hg] at hu; exact absurd hu (List.not_mem_nil u)
            | some v =>
              rw [hg] at hu
              rw [List.mem_singleton.mp hu]
              intro hx
              rw [String.data_append] at hx
              rcases List.mem_append.mp hx with hx | hx
              · exact absurd hx (by decide)
              · exact intStr_no_newline _ hx
        · cases hg : p.region with
          | none => rw [hg] at hu; exact absurd hu (List.not_mem_nil u)
          | some v =>
            rw [hg] at hu
            rw [List.mem_singleton.mp hu]
            intro hx
            rw [String.data_append] at hx
            rcases List.mem_append.mp hx with hx | hx
            · exact absurd hx (by decide)
            · exact intStr_no_newline _ hx
      · cases hg : p.income with
        | none => rw [hg] at hu; exact absurd hu (List.not_mem_nil u)
        | some v =>
          rw [hg] at hu
          rw [List.mem_singleton.mp hu]
          intro hx
          rw [String.data_append] at hx
          rcases List.mem_append.mp hx with hx | hx
          · exact absurd hx (by decide)
          · exact intStr_no_newline _ hx
  · exact absurd h (by decide)

theorem dumpsSeries_no_newline (s : List Point) : '\n' ∉ (dumpsSeries s).data := by
  intro h
  unfold dumpsSeries at h
  rw [String.data_append, String.data_append] at h
  rcases List.mem_append.mp h with h | h
  · rcases List.mem_append.mp h with h | h
    · exact absurd h (by decide)
    · refine commaJoin_no_newline _ ?_ h
      intro u hu
      obtain ⟨pt, _, rfl⟩ := List.mem_map.mp hu
      exact dumpsPoint_no_newline pt
  · exact absurd h (by decide)

theorem dumpsYearTbl_no_newline (y : YearTbl) : '\n' ∉ (dumpsYearTbl y).data := by
  intro h
  unfold dumpsYearTbl at h
  rw [String.data_append, String.data_append] at h
  rcases List.mem_append.mp h with h | h
  · rcases List.mem_append.mp h with h | h
    · exact absurd h (by decide)
    · refine commaJoin_no_newline _ ?_ h
      intro u hu
      obtain ⟨e, _, rfl⟩ := List.mem_map.mp hu
      intro hx
      rw [String.data_append, String.data_append] at hx
      rcases List.mem_append.mp hx with hx | hx
      · rcases List.mem_append.mp hx with hx | hx
        · exact jsonStr_no_newline _ hx
        · exact absurd hx (by decide)
      · exact dumpsSeries_no_newline _ hx
  · exact absurd h (by decide)

theorem dumpsRawData_no_newline (rd : RawData) : '\n' ∉ (dumpsRawData rd).data := by
  intro h
  unfold dumpsRawData at h
  rw [String.data_append, String.data_append] at h
  rcases List.mem_append.mp h with h | h
  · rcases List.mem_append.mp h with h | h
    · exact absurd h (by decide)
    · refine commaJoin_no_newline _ ?_ h
      intro u hu
      obtain ⟨e, _, rfl⟩ := List.mem_map.mp hu
      intro hx
      rw [String.data_append, String.data_append] at hx
      rcases List.mem_append.mp hx with hx | hx
      · rcases List.mem_append.mp hx with hx | hx
        · exact jsonStr_no_newline _ hx
        · exact absurd hx (by decide)
      · exact dumpsYearTbl_no_newline _ hx
  · exact absurd h (by decide)

theorem dumpsInfoRec_no_newline (r : InfoRec) : '\n' ∉ (dumpsInfoRec r).data := by
  intro h
  unfold dumpsInfoRec at h
  rw [String.data_append, String.data_append] at h
  rcases List.mem_append.mp h with h | h
  · rcases List.mem_append.mp h with h | h
    · exact absurd h (by decide)
    · refine commaJoin_no_newline _ ?_ h
      intro u hu
      obtain ⟨e, _, rfl⟩ := List.mem_map.mp hu
      intro hx
      rw [String.data_append, String.data_append] at hx
      rcases List.mem_append.mp hx with hx | hx
      · rcases List.mem_append.mp hx with hx | hx
        · exact jsonStr_no_newline _ hx
        · exact absurd hx (by decide)
      · exact jsonStr_no_newline _ hx
  · exact absurd h (by decide)

theorem dumpsCtrInfo_no_newline (ci : List (String × InfoRec)) :
    '\n' ∉ (dumpsCtrInfo ci).data := by
  intro h
  unfold dumpsCtrInfo at h
  rw [String.data_append, String.data_append] at h
  rcases List.mem_append.mp h with h | h
  · rcases List.mem_append.mp h with h | h
    · exact absurd h (by decide)
    · refine commaJoin_no_newline _ ?_ h
      intro u hu
      obtain ⟨e, _, rfl⟩ := List.mem_map.mp hu
      intro hx
      rw [String.data_append, String.data_append] at hx
      rcases List.mem_append.mp hx with hx | hx
      · rcases List.mem_append.mp hx with hx | hx
        · exact jsonStr_no_newline _ hx
        · exact absurd hx (by decide)
      · exact dumpsInfoRec_no_newline _ hx
  · exact absurd h (by decide)

theorem buildOutput_eq (rd : RawData) (ci : List (String × InfoRec)) :
    buildOutput rd ci =
      ("    const rawData = " ++ dumpsRawData rd ++ ";") ++ "\n" ++
        ("    const countriesInfo = " ++ dumpsCtrInfo ci ++ ";") ++ "\n" := by
  unfold buildOutput
  apply String.ext
  have hm : (";\n    const countriesInfo = " : String).data =
      (";" : String).data ++ (("\n" : String).data ++
        ("    const countriesInfo = " : String).data) := by decide
  have he : (";\n" : String).data =
      (";" : String).data ++ ("\n" : String).data := by decide
  simp only [String.data_append, hm, he, List.append_assoc, List.cons_append,
    List.nil_append]

/-! ### Key order through the folds -/

theorem akeys_rdStep (rd : RawData) (c : String) :
    akeys (rdStep rd c) = if c ∈ akeys rd then akeys rd else akeys rd ++ [c] := by
  unfold rdStep
  by_cases h : (alookup c rd).isSome = true
  · rw [if_pos h, if_pos ((alookup_isSome_iff c rd).mp h)]
  · rw [if_neg h, if_neg (fun hm => h ((alookup_isSome_iff c rd).mpr hm)), akeys_append]
    rfl

theorem akeys_ciStep (ci : CtrInfo) (c : String) (row : Row) :
    akeys (ciStep ci c row) = if c ∈ akeys ci then akeys ci else akeys ci ++ [c] := by
  unfold ciStep
  by_cases h : (alookup c ci).isSome = true
  · rw [if_pos h, if_pos ((alookup_isSome_iff c ci).mp h)]
  · rw [if_neg h, if_neg (fun hm => h ((alookup_isSome_iff c ci).mpr hm)), akeys_append]
    rfl

theorem runRows_keys (rows : List Row) :
    ∀ st0 st', rows.foldlM processRow st0 = Except.ok st' →
      akeys st0.2 = akeys st0.1 →
      akeys st'.1 = rows.foldl ctryStep (akeys st0.1) ∧ akeys st'.2 = akeys st'.1 := by
  induction rows with
  | nil =>
    intro st0 st' h heq
    simp only [List.foldlM_nil] at h
    cases Except.ok.inj h
    exact ⟨rfl, heq⟩
  | cons row rest ih =>
    intro st0 st' h heq
    obtain ⟨st1, hstep, hrest⟩ := foldlM_except_cons_ok _ row rest st0 st' h
    obtain ⟨cRaw, hcr, hcase⟩ := processRow_ok st0 st1 row hstep
    have hstep1 : akeys st1.1 = ctryStep (akeys st0.1) row ∧ akeys st1.2 = akeys st1.1 := by
      rcases hcase with ⟨hblank, rfl⟩ | ⟨hne, hcase⟩
      · constructor
        · simp only [ctryStep, hcr]
          rw [if_pos (Or.inl hblank)]
        · exact heq
      · have hk1 : akeys st1.1 = akeys (rdStep st0.1 (pyStrip cRaw)) := by
          rcases hcase with ⟨_, rfl⟩ | ⟨p, ytbl, _, _, rfl⟩
          · rfl
          · exact akeys_aupdate _ _ _
        have hk2 : st1.2 = ciStep st0.2 (pyStrip cRaw) row := by
          rcases hcase with ⟨_, rfl⟩ | ⟨p, ytbl, _, _, rfl⟩ <;> rfl
        constructor
        · rw [hk1, akeys_rdStep]
          simp only [ctryStep, hcr]
          by_cases hmem : pyStrip cRaw ∈ akeys st0.1
          · rw [if_pos hmem, if_pos (Or.inr hmem)]
          · rw [if_neg hmem, if_neg (fun hor => hor.elim hne hmem)]
        · rw [hk2, akeys_ciStep, heq, hk1, akeys_rdStep]
    obtain ⟨ih1, ih2⟩ := ih st1 st' hrest hstep1.2
    refine ⟨?_, ih2⟩
    rw [List.foldl_cons, ← hstep1.1]
    exact ih1

theorem runRows_ne_blank (rows : List Row) (st : RawData × CtrInfo)
    (h : runRows rows = Except.ok st) : "" ∉ akeys st.1 := by
  refine foldlM_except_inv processRow (fun t => "" ∉ akeys t.1) rows ([], []) st
    ?_ (by simp [akeys]) h
  intro t row t' _ hP hstep
  obtain ⟨cRaw, hcr, hcase⟩ := processRow_ok t t' row hstep
  rcases hcase with ⟨hblank, rfl⟩ | ⟨hne, hcase⟩
  · exact hP
  · have hk1 : akeys t'.1 = akeys (rdStep t.1 (pyStrip cRaw)) := by
      rcases hcase with ⟨_, rfl⟩ | ⟨p, ytbl, _, _, rfl⟩
      · rfl
      · exact akeys_aupdate _ _ _
    rw [hk1, akeys_rdStep]
    by_cases hmem : pyStrip cRaw ∈ akeys t.1
    · rw [if_pos hmem]
      exact hP
    · rw [if_neg hmem]
      intro hin
      rcases List.mem_append.mp hin with hin | hin
      · exact hP hin
      · exact hne (List.mem_singleton.mp hin).symm

theorem yearFold_keys (row : Row) (p : Int) :
    ∀ (l : List (String × String)) (ytbl ytbl' : YearTbl),
      l.foldlM (yearStep row p) ytbl = Except.ok ytbl' →
      akeys ytbl' = l.foldl
        (fun a sy => if qualifies row sy.1 = true ∧ ¬ sy.2 ∈ a then a ++ [sy.2] else a)
        (akeys ytbl) := by
  intro l
  induction l with
  | nil =>
    intro ytbl ytbl' h
    simp only [List.foldlM_nil] at h
    cases Except.ok.inj h
    rfl
  | cons sy rest ih =>
    intro ytbl ytbl' h
    obtain ⟨t1, hstep, hrest⟩ := foldlM_except_cons_ok _ sy rest ytbl ytbl' h
    obtain ⟨gv, rv, iv, hg, hr, hi, hcase⟩ := yearStep_ok row p ytbl t1 sy hstep
    have hq : qualifies row sy.1 = !(gv == none && rv == none && iv == none) := by
      unfold qualifies
      rw [hg, hr, hi]
    rw [List.foldl_cons]
    rcases hcase with ⟨h1, h2, h3, rfl⟩ | ⟨hne, rfl⟩
    · have hqf : qualifies row sy.1 = false := by
        rw [hq, h1, h2, h3]
        rfl
      rw [ih _ ytbl' hrest,
        if_neg (fun hand => by rw [hqf] at hand; exact Bool.noConfusion hand.1)]
    · have hqt : qualifies row sy.1 = true := by
        rw [hq]
        cases hb : (gv == none && rv == none && iv == none) with
        | false => rfl
        | true =>
          rw [Bool.and_eq_true, Bool.and_eq_true] at hb
          exact absurd ⟨eq_of_beq hb.1.1, eq_of_beq hb.1.2, eq_of_beq hb.2⟩ hne
      rw [ih _ ytbl' hrest]
      have hkeys : akeys (aupdate sy.2 (fun s => s ++ [Point.mk p gv rv iv])
          (if (alookup sy.2 ytbl).isSome then ytbl else ytbl ++ [(sy.2, [])])) =
          if sy.2 ∈ akeys ytbl then akeys ytbl else akeys ytbl ++ [sy.2] := by
        rw [akeys_aupdate]
        by_cases hs : (alookup sy.2 ytbl).isSome = true
        · rw [if_pos hs, if_pos ((alookup_isSome_iff _ _).mp hs)]
        · rw [if_neg hs, if_neg (fun hm => hs ((alookup_isSome_iff _ _).mpr hm)),
            akeys_append]
          rfl
      rw [hkeys]
      by_cases hmem : sy.2 ∈ akeys ytbl
      · rw [if_pos hmem, if_neg (fun hand => hand.2 hmem)]
      · rw [if_neg hmem, if_pos ⟨hqt, hmem⟩]

theorem runRows_yearKeys (rows : List Row) :
    ∀ st0 st', rows.foldlM processRow st0 = Except.ok st' → ∀ c, c ≠ "" →
      Option.map akeys (alookup c st'.1) =
        rows.foldl (yearKeysAcc c) (Option.map akeys (alookup c st0.1)) := by
  induction rows with
  | nil =>
    intro st0 st' h c _
    simp only [List.foldlM_nil] at h
    cases Except.ok.inj h
    rfl
  | cons row rest ih =>
    intro st0 st' h c hcne
    obtain ⟨st1, hstep, hrest⟩ := foldlM_except_cons_ok _ row rest st0 st' h
    obtain ⟨cRaw, hcr, hcase⟩ := processRow_ok st0 st1 row hstep
    rw [List.foldl_cons, ih st1 st' hrest c hcne]
    congr 1
    simp only [yearKeysAcc, hcr]
    rcases hcase with ⟨hblank, rfl⟩ | ⟨hne, hcase⟩
    · rw [if_neg (show ¬pyStrip cRaw = c from fun he => hcne (he.symm.trans hblank))]
    · by_cases hcc : pyStrip cRaw = c
      · rw [if_pos hcc]
        subst hcc
        rcases hcase with ⟨hd, rfl⟩ | ⟨p, ytblN, hd, hfold, rfl⟩
        · have hdok : domesticOk row = false := by
            unfold domesticOk
            rw [hd]
          rw [hdok]
          simp only [Bool.false_eq_true, if_false]
          show Option.map akeys (alookup (pyStrip cRaw) (rdStep st0.1 (pyStrip cRaw))) = _
          rw [alookup_rdStep, if_pos rfl]
          cases alookup (pyStrip cRaw) st0.1 <;> rfl
        · have hdok : domesticOk row = true := by
            unfold domesticOk
            rw [hd]
          rw [hdok, if_pos rfl]
          show Option.map akeys (alookup (pyStrip cRaw)
            (aupdate (pyStrip cRaw) (fun _ => ytblN) (rdStep st0.1 (pyStrip cRaw)))) = _
          rw [alookup_aupdate, if_pos rfl, alookup_rdStep, if_pos rfl]
          have hyk := yearFold_keys row p YEAR_MAP
            ((alookup (pyStrip cRaw) (rdStep st0.1 (pyStrip cRaw))).getD []) ytblN hfold
          unfold yearKeysStep
          cases hl : alookup (pyStrip cRaw) st0.1 with
          | some y =>
            have hbase : (alookup (pyStrip cRaw) (rdStep st0.1 (pyStrip cRaw))).getD [] = y := by
              rw [alookup_rdStep, hl, Option.or_some]
              rfl
            rw [hbase] at hyk
            simp only [Option.or_some, Option.map_some', Option.getD_some]
            rw [hyk]
          | none =>
            have hbase : (alookup (pyStrip cRaw) (rdStep st0.1 (pyStrip cRaw))).getD [] = [] := by
              rw [alookup_rdStep, hl, Option.none_or, if_pos rfl]
              rfl
            rw [hbase] at hyk
            simp only [Option.none_or, Option.map_some', Option.map_none', Option.getD_none]
            rw [hyk]
            rfl
      · rw [if_neg hcc]
        have hlook : alookup c st1.1 = alookup c st0.1 := by
          have h1 : alookup c (rdStep st0.1 (pyStrip cRaw)) = alookup c st0.1 := by
            rw [alookup_rdStep, if_neg hcc, Option.or_none]
          rcases hcase with ⟨_, rfl⟩ | ⟨p, ytblN, _, _, rfl⟩
          · exact h1
          · rw [alookup_aupdate, if_neg (fun he => hcc he.symm), h1]
        rw [hlook]

/-! ### The claims -/

/-- Claim C1 (code bug): the field parser is claimed never to raise, but a
cell whose stripped value is `inf` (Python `float` accepts it) makes
`int(round(float(val)))` raise `OverflowError`, which the
`except (ValueError, TypeError)` clause does not catch, so it escapes to the
caller. -/
theorem parse_int_or_none_inf_raises :
    parse_int_or_none (some "inf") = Except.error PyErr.overflowError := by decide

set_option synthInstance.maxSize 1024 in
set_option maxRecDepth 8192 in
/-- Claim C2 (counterexample): a `p_country` cell of `-1` parses to the
negative percentile `-1`, which is stored, so Observation percentiles are
not non-negative in general. -/
theorem negative_percentile_example :
    mainRun [[("country", "A"), ("p_country", "-1"), ("p_global_90", "1")]] =
      Except.ok ([("A", [("1990", [⟨-1, some 1, none, none⟩])])], [("A", [])]) ∧
    (Point.mk (-1) (some 1) none none).percentile < 0 := by
  constructor
  · decide
  · decide

/-- Claim C2 (amended): every Series of the final CountryYearTable is the
stable ascending sort by integer percentile of the accumulated observations
(sorted non-decreasing; observations with equal percentile keep their
original row order, stated as equality of the per-key filters); the
percentiles are non-negative provided every parsed domestic percentile of
the input is non-negative (the unconditional claim fails, see the
counterexample). -/
theorem series_sorted_stable_nonneg :
    ∀ rows st out, runRows rows = Except.ok st → mainRun rows = Except.ok out →
      ∀ c ytbl y s, alookup c out.1 = some ytbl → alookup y ytbl = some s →
        s.Pairwise (fun a b => a.percentile ≤ b.percentile) ∧
        (∃ ytbl0 s0, alookup c st.1 = some ytbl0 ∧ alookup y ytbl0 = some s0 ∧
          s = sortPoints s0 ∧
          ∀ k : Int, s.filter (fun pt => decide (pt.percentile = k)) =
            s0.filter (fun pt => decide (pt.percentile = k))) ∧
        ((∀ row ∈ rows, ∀ n, parseDomestic (rowGet row "p_country" "") =
            Except.ok (some n) → 0 ≤ n) →
          ∀ pt ∈ s, 0 ≤ pt.percentile) := by
  intro rows st out hst hout c ytbl y s hc hy
  obtain ⟨ytbl0, s0, hc0, hy0, hs⟩ := mainRun_series rows out st c y ytbl s hout hst hc hy
  refine ⟨?_, ⟨ytbl0, s0, hc0, hy0, hs, ?_⟩, ?_⟩
  · rw [hs]
    exact sortPoints_sorted s0
  · intro k
    rw [hs]
    exact sortPoints_filter s0 k
  · intro hnonneg pt hpt
    have hpt0 : pt ∈ s0 := (mem_sortPoints pt s0).mp (by rw [← hs]; exact hpt)
    refine runRows_points (fun q => 0 ≤ q.percentile) rows st hst ?_
      c ytbl0 y s0 hc0 hy0 pt hpt0
    intro row hrow p gv rv iv hd _
    exact hnonneg row hrow p hd

set_option synthInstance.maxSize 1024 in
set_option maxRecDepth 8192 in
/-- Claim C2 witness: a concrete one-row run, with sortedness, stability and
(with the non-negativity hypothesis discharged) non-negativity at the single
stored observation. -/
theorem series_sorted_stable_nonneg_witness :
    ([Point.mk 5 (some 1) none none]).Pairwise
        (fun a b => a.percentile ≤ b.percentile) ∧
      (∃ ytbl0 s0,
        alookup "A" ([("A", [("1990", [Point.mk 5 (some 1) none none])])] : RawData) =
          some ytbl0 ∧
        alookup "1990" ytbl0 = some s0 ∧
        [Point.mk 5 (some 1) none none] = sortPoints s0 ∧
        ∀ k : Int, ([Point.mk 5 (some 1) none none]).filter
            (fun pt => decide (pt.percentile = k)) =
          s0.filter (fun pt => decide (pt.percentile = k))) ∧
      ((∀ row ∈ [[("country", "A"), ("p_country", "5"), ("p_global_90", "1")]],
          ∀ n, parseDomestic (rowGet row "p_country" "") = Except.ok (some n) → 0 ≤ n) →
        ∀ pt ∈ [Point.mk 5 (some 1) none none], 0 ≤ pt.percentile) :=
  series_sorted_stable_nonneg
    [[("country", "A"), ("p_country", "5"), ("p_global_90", "1")]]
    ([("A", [("1990", [Point.mk 5 (some 1) none none])])], [("A", Info.mk none none)])
    ([("A", [("1990", [Point.mk 5 (some 1) none none])])], [("A", [])])
    (by decide) (by decide)
    "A" [("1990", [Point.mk 5 (some 1) none none])] "1990"
    [Point.mk 5 (some 1) none none] (by decide) (by decide)

/-- Claim C3: an Observation is appended only when not all of the three
optional fields parsed absent, so every stored Observation carries at least
one of global/region/income; moreover a year iteration whose three cells all
parse absent leaves the year table unchanged (no Observation for that
year). -/
theorem observation_has_some_field :
    (∀ rows out, mainRun rows = Except.ok out →
      ∀ c ytbl y s pt, alookup c out.1 = some ytbl → alookup y ytbl = some s →
        pt ∈ s → ¬(pt.global = none ∧ pt.region = none ∧ pt.income = none)) ∧
    (∀ row p ytbl sy,
      cellParse row ("p_global_" ++ sy.1) = Except.ok none →
      cellParse row ("p_region_" ++ sy.1) = Except.ok none →
      cellParse row ("p_income_" ++ sy.1) = Except.ok none →
      yearStep row p ytbl sy = Except.ok ytbl) := by
  constructor
  · intro rows out hout c ytbl y s pt hc hy hpt
    obtain ⟨st, hst, hpp⟩ := (mainRun_ok rows out).mp hout
    obtain ⟨ytbl0, s0, hc0, hy0, hs⟩ :=
      mainRun_series rows out st c y ytbl s hout hst hc hy
    have hpt0 : pt ∈ s0 := (mem_sortPoints pt s0).mp (by rw [← hs]; exact hpt)
    refine runRows_points
      (fun q => ¬(q.global = none ∧ q.region = none ∧ q.income = none))
      rows st hst ?_ c ytbl0 y s0 hc0 hy0 pt hpt0
    intro row _ p gv rv iv _ hne3
    simpa using hne3
  · intro row p ytbl sy hg hr hi
    unfold yearStep
    simp [hg, hr, hi]

set_option synthInstance.maxSize 1024 in
set_option maxRecDepth 8192 in
/-- Claim C3 witness: the concrete stored observation of a one-row run has
its global field present, and a year step over three empty cells is the
identity. -/
theorem observation_has_some_field_witness :
    ¬((Point.mk 5 (some 7) none none).global = none ∧
        (Point.mk 5 (some 7) none none).region = none ∧
        (Point.mk 5 (some 7) none none).income = none) ∧
      yearStep [("country", "A")] 5 [] ("90", "1990") = Except.ok [] :=
  ⟨observation_has_some_field.1
      [[("country", "A"), ("p_country", "5"), ("p_global_90", "7")]]
      ([("A", [("1990", [Point.mk 5 (some 7) none none])])], [("A", [])])
      (by decide)
      "A" [("1990", [Point.mk 5 (some 7) none none])] "1990"
      [Point.mk 5 (some 7) none none] (Point.mk 5 (some 7) none none)
      (by decide) (by decide) (by decide),
    observation_has_some_field.2 [("country", "A")] 5 [] ("90", "1990")
      (by decide) (by decide) (by decide)⟩

set_option synthInstance.maxSize 1024 in
set_option maxRecDepth 8192 in
/-- Claim C5 (counterexample): a row whose `p_country` cell is blank still
creates its country's `raw_data` entry (lines 54-55 run before the
percentile check), so the serialized table maps country `A` to an empty
year mapping. -/
theorem empty_year_mapping_example :
    mainRun [[("country", "A"), ("p_country", "")]] =
      Except.ok ([("A", [])], [("A", [])]) ∧
    alookup "A" ([("A", [])] : RawData) = some ([] : YearTbl) := by
  constructor
  · decide
  · decide

/-- Claim C5 (amended): every year key of the final table maps to a
non-empty Series (a year entry is created only together with its first
appended Observation); the country level of the claim fails — a country key
exists for every row with a non-blank country name even when no Observation
qualifies, so a country may map to an empty year mapping (see the
counterexample). -/
theorem series_nonempty :
    ∀ rows out, mainRun rows = Except.ok out →
      ∀ c ytbl y s, alookup c out.1 = some ytbl → alookup y ytbl = some s →
        s ≠ [] := by
  intro rows out hout c ytbl y s hc hy
  obtain ⟨st, hst, hpp⟩ := (mainRun_ok rows out).mp hout
  obtain ⟨ytbl0, s0, hc0, hy0, hs⟩ :=
    mainRun_series rows out st c y ytbl s hout hst hc hy
  have h0 : s0 ≠ [] := runRows_nonempty rows st hst c ytbl0 y s0 hc0 hy0
  intro hnil
  apply h0
  have hlen : s0.length = 0 := by
    rw [← (sortPoints_perm s0).length_eq, ← hs, hnil]
    rfl
  exact List.eq_nil_of_length_eq_zero hlen

set_option synthInstance.maxSize 1024 in
set_option maxRecDepth 8192 in
/-- Claim C5 witness: the non-emptiness of the single concrete series of a
one-row run. -/
theorem series_nonempty_witness :
    ([Point.mk 5 (some 7) none none] : List Point) ≠ [] :=
  series_nonempty [[("country", "A"), ("p_country", "5"), ("p_global_90", "7")]]
    ([("A", [("1990", [Point.mk 5 (some 7) none none])])], [("A", [])])
    (by decide) "A" [("1990", [Point.mk 5 (some 7) none none])] "1990"
    [Point.mk 5 (some 7) none none] (by decide) (by decide)

/-- Claim C4: the stored CountryInfo record of every country equals the
record built from the first row (in file order) whose trimmed country cell
is that country — both before and after the pruning pass — so later rows
never overwrite the metadata. -/
theorem countryInfo_first_seen :
    ∀ rows st out c, runRows rows = Except.ok st → mainRun rows = Except.ok out →
      c ≠ "" →
      alookup c st.2 = (firstRowFor c rows).map infoOfRow ∧
      alookup c out.2 = (firstRowFor c rows).map (fun row => pruneInfo (infoOfRow row)) := by
  intro rows st out c hst hout hcne
  have h1 : alookup c st.2 = (firstRowFor c rows).map infoOfRow := by
    have h := runRows_ci_lookup rows ([], []) st hst c hcne
    rw [h]
    rfl
  constructor
  · exact h1
  · obtain ⟨st2, hst2, rfl⟩ := (mainRun_ok rows out).mp hout
    rw [hst2] at hst
    cases Except.ok.inj hst
    rw [postProcess_ci_lookup, h1, Option.map_map]
    rfl

set_option synthInstance.maxSize 1024 in
set_option maxRecDepth 8192 in
/-- Claim C4 witness: two rows for country `X` with different `region_wb`
cells; the stored record carries the first row's value `Europe`. -/
theorem countryInfo_first_seen_witness :
    alookup "X"
        ([("X", Info.mk (some "Europe") none)] : CtrInfo) =
      (firstRowFor "X"
        [[("country", "X"), ("region_wb", "Europe"), ("p_country", "")],
         [("country", "X"), ("region_wb", "Asia"), ("p_country", "")]]).map infoOfRow ∧
    alookup "X" ([("X", [("region", "Europe")])] : List (String × InfoRec)) =
      (firstRowFor "X"
        [[("country", "X"), ("region_wb", "Europe"), ("p_country", "")],
         [("country", "X"), ("region_wb", "Asia"), ("p_country", "")]]).map
        (fun row => pruneInfo (infoOfRow row)) :=
  countryInfo_first_seen
    [[("country", "X"), ("region_wb", "Europe"), ("p_country", "")],
     [("country", "X"), ("region_wb", "Asia"), ("p_country", "")]]
    ([("X", [])], [("X", Info.mk (some "Europe") none)])
    ([("X", [])], [("X", [("region", "Europe")])])
    "X" (by decide) (by decide) (by decide)

set_option synthInstance.maxSize 1024 in
set_option maxRecDepth 8192 in
/-- Claim C6 (counterexample): when the header lacks the `country` column,
`row['country']` raises `KeyError`, so the run fails fatally — the claim
does not hold for the `country` column. -/
theorem missing_country_column_fatal :
    mainRun [[("p_country", "5")]] = Except.error (PyErr.keyError "country") := by
  decide

/-- Claim C6 (amended): for every expected column other than `country`, a
missing column is read exactly like an empty-string cell — appending the
missing column with an empty value changes nothing — while a missing
`country` column makes the row processing raise `KeyError`. -/
theorem missing_column_like_empty :
    (∀ (st : RawData × CtrInfo) (row : Row) (k : String), k ≠ "country" →
      alookup k row = none →
      processRow st row = processRow st (row ++ [(k, "")])) ∧
    (∀ (st : RawData × CtrInfo) (row : Row), alookup "country" row = none →
      processRow st row = Except.error (PyErr.keyError "country")) := by
  constructor
  · intro st row k hk hnone
    have hget : ∀ col, rowGet (row ++ [(k, "")]) col "" = rowGet row col "" := by
      intro col
      unfold rowGet
      rw [alookup_append, alookup_singleton]
      by_cases hc : k = col
      · subst hc
        rw [hnone, if_pos rfl]
        rfl
      · rw [if_neg hc, Option.or_none]
    have hcountry : alookup "country" (row ++ [(k, "")]) = alookup "country" row := by
      rw [alookup_append, alookup_singleton, if_neg hk, Option.or_none]
    have hys : yearStep (row ++ [(k, "")]) = yearStep row := by
      funext p ytbl sy
      unfold yearStep cellParse
      rw [hget, hget, hget]
    have hci : ∀ ci c, ciStep ci c (row ++ [(k, "")]) = ciStep ci c row := by
      intro ci c
      unfold ciStep infoOfRow
      rw [hget, hget]
    unfold processRow
    simp only [hcountry, hget, hys, hci]
  · intro st row hnone
    unfold processRow
    rw [hnone]

set_option synthInstance.maxSize 1024 in
set_option maxRecDepth 8192 in
/-- Claim C6 witness: appending an absent `region_wb` column as an empty
cell leaves row processing unchanged, and a row without a `country` key
raises `KeyError`. -/
theorem missing_column_like_empty_witness :
    processRow (([], []) : RawData × CtrInfo) [("country", "A")] =
      processRow ([], []) ([("country", "A")] ++ [("region_wb", "")]) ∧
    processRow (([], []) : RawData × CtrInfo) [("p_country", "5")] =
      Except.error (PyErr.keyError "country") :=
  ⟨missing_column_like_empty.1 ([], []) [("country", "A")] "region_wb"
      (by decide) (by decide),
    missing_column_like_empty.2 ([], []) [("p_country", "5")] (by decide)⟩

/-- Claim C7: serialized CountryInfo records never hold an empty-string
value (blank cells are normalized to absent and their keys dropped by the
pruning pass), and pruning never removes a country key. -/
theorem countryInfo_no_empty_values :
    ∀ rows st out, runRows rows = Except.ok st → mainRun rows = Except.ok out →
      (∀ c rec, alookup c out.2 = some rec → ∀ kv ∈ rec, kv.2 ≠ "") ∧
      akeys out.2 = akeys st.2 := by
  intro rows st out hst hout
  obtain ⟨st2, hst2, rfl⟩ := (mainRun_ok rows out).mp hout
  rw [hst2] at hst
  cases Except.ok.inj hst
  constructor
  · intro c rec hrec kv hkv
    rw [postProcess_ci_lookup] at hrec
    cases hl : alookup c st.2 with
    | none =>
      rw [hl] at hrec
      exact Option.noConfusion hrec
    | some info =>
      rw [hl, Option.map_some'] at hrec
      obtain ⟨hreg, hig⟩ := runRows_info rows st hst2 c info hl
      rw [← Option.some.inj hrec] at hkv
      unfold pruneInfo at hkv
      rcases List.mem_append.mp hkv with hmem | hmem
      · cases hr : info.region with
        | none =>
          rw [hr] at hmem
          exact absurd hmem (List.not_mem_nil kv)
        | some r =>
          rw [hr] at hmem
          rw [List.mem_singleton.mp hmem]
          exact hreg r hr
      · cases hg : info.incomegroup with
        | none =>
          rw [hg] at hmem
          exact absurd hmem (List.not_mem_nil kv)
        | some g =>
          rw [hg] at hmem
          rw [List.mem_singleton.mp hmem]
          exact hig g hg
  · exact akeys_map _ st.2

set_option synthInstance.maxSize 1024 in
set_option maxRecDepth 8192 in
/-- Claim C7 witness: a row whose `region_wb` cell is whitespace-only drops
the `region` key, keeps the non-blank `incomegroup` value, and the country
key survives pruning. -/
theorem countryInfo_no_empty_values_witness :
    ("incomegroup", "x").2 ≠ "" ∧
      akeys ([("A", [("incomegroup", "x")])] : List (String × InfoRec)) =
        akeys ([("A", Info.mk none (some "x"))] : CtrInfo) :=
  ⟨(countryInfo_no_empty_values
      [[("country", "A"), ("region_wb", " "), ("incomegroup", "x"), ("p_country", "")]]
      ([("A", [])], [("A", Info.mk none (some "x"))])
      ([("A", [])], [("A", [("incomegroup", "x")])])
      (by decide) (by decide)).1 "A" [("incomegroup", "x")] (by decide)
      ("incomegroup", "x") (by decide),
    (countryInfo_no_empty_values
      [[("country", "A"), ("region_wb", " "), ("incomegroup", "x"), ("p_country", "")]]
      ([("A", [])], [("A", Info.mk none (some "x"))])
      ([("A", [])], [("A", [("incomegroup", "x")])])
      (by decide) (by decide)).2⟩

/-- Claim C8: a `p_country` cell of the form `Contact <rest>` (with no
second occurrence of the token and no surrounding whitespace) parses exactly
as `<rest>` does under the ordinary field-parser rules; in particular
`Contact 7` yields domestic percentile `7`. -/
theorem contact_token_parses :
    (∀ t : String, stripList ("Contact ".data ++ t.data) = "Contact ".data ++ t.data →
      hasOccur "Contact ".data t.data = false →
      parseDomestic ("Contact " ++ t) = parse_int_or_none (some t)) ∧
    parseDomestic "Contact 7" = Except.ok (some 7) := by
  constructor
  · intro t hstrip hocc
    have hdata : ("Contact " ++ t).data = "Contact ".data ++ t.data :=
      String.data_append "Contact " t
    have hstrip2 : pyStrip ("Contact " ++ t) = "Contact " ++ t := by
      unfold pyStrip
      rw [hdata, hstrip, ← hdata]
    unfold parseDomestic
    rw [hstrip2]
    have hsw : pyStartsWith ("Contact " ++ t) "Contact " = true := by
      unfold pyStartsWith
      rw [hdata]
      exact startsWithList_append "Contact ".data t.data
    rw [if_pos hsw]
    have hrep : pyReplace ("Contact " ++ t) "Contact " "" = t := by
      unfold pyReplace
      rw [hdata, replaceList_anchor "Contact ".data "".data t.data (by decide) hocc]
      rfl
    rw [hrep]
  · decide

set_option synthInstance.maxSize 1024 in
set_option maxRecDepth 8192 in
/-- Claim C8 witness: the general token rule applied at the remainder `7`. -/
theorem contact_token_parses_witness :
    parseDomestic ("Contact " ++ "7") = parse_int_or_none (some "7") :=
  contact_token_parses.1 "7" (by decide) (by decide)

set_option synthInstance.maxSize 1024 in
set_option maxRecDepth 8192 in
/-- Claim C9: the artifact of every successful run is exactly two lines —
the compact-JSON `rawData` assignment and the compact-JSON `countriesInfo`
assignment, each starting with four spaces and ending with a line break,
with no other content: the artifact text equals
`line1 ++ "\n" ++ line2 ++ "\n"` where neither line contains a line
break. -/
theorem output_two_lines :
    ∀ rows out, mainRun rows = Except.ok out →
      mainOutput rows = Except.ok
        (("    const rawData = " ++ dumpsRawData out.1 ++ ";") ++ "\n" ++
          ("    const countriesInfo = " ++ dumpsCtrInfo out.2 ++ ";") ++ "\n") ∧
      '\n' ∉ ("    const rawData = " ++ dumpsRawData out.1 ++ ";").data ∧
      '\n' ∉ ("    const countriesInfo = " ++ dumpsCtrInfo out.2 ++ ";").data := by
  intro rows out hout
  refine ⟨?_, ?_, ?_⟩
  · unfold mainOutput
    rw [hout]
    show Except.ok (buildOutput out.1 out.2) = _
    rw [buildOutput_eq]
  · intro h
    rw [String.data_append, String.data_append] at h
    rcases List.mem_append.mp h with h | h
    · rcases List.mem_append.mp h with h | h
      · exact absurd h (by decide)
      · exact dumpsRawData_no_newline _ h
    · exact absurd h (by decide)
  · intro h
    rw [String.data_append, String.data_append] at h
    rcases List.mem_append.mp h with h | h
    · rcases List.mem_append.mp h with h | h
      · exact absurd h (by decide)
      · exact dumpsCtrInfo_no_newline _ h
    · exact absurd h (by decide)

set_option synthInstance.maxSize 1024 in
set_option maxRecDepth 8192 in
/-- Claim C9 witness: the artifact of a concrete one-row run, decomposed
into its two newline-terminated lines. -/
theorem output_two_lines_witness :
    mainOutput [[("country", "A"), ("p_country", "5"), ("p_global_90", "7")]] =
      Except.ok
        (("    const rawData = " ++
            dumpsRawData [("A", [("1990", [Point.mk 5 (some 7) none none])])] ++ ";") ++
          "\n" ++
          ("    const countriesInfo = " ++
            dumpsCtrInfo [("A", ([] : InfoRec))] ++ ";") ++ "\n") ∧
      '\n' ∉ ("    const rawData = " ++
        dumpsRawData [("A", [("1990", [Point.mk 5 (some 7) none none])])] ++ ";").data ∧
      '\n' ∉ ("    const countriesInfo = " ++
        dumpsCtrInfo [("A", ([] : InfoRec))] ++ ";").data :=
  output_two_lines [[("country", "A"), ("p_country", "5"), ("p_global_90", "7")]]
    ([("A", [("1990", [Point.mk 5 (some 7) none none])])], [("A", [])])
    (by decide)

/-- Claim C10: the artifact text is a pure function of the input rows (two
runs on equal row sequences yield character-for-character identical text),
the country keys of both serialized mappings appear in order of first
appearance of their (non-blank, trimmed) country name, and the year keys of
every country appear in the order of first qualifying contribution, the
years of one row being visited in the fixed `YEAR_MAP` suffix order
90, 00, 10, 19, 22. -/
theorem deterministic_output_and_key_order :
    ∀ rows rows2 out c ytbl, rows2 = rows → mainRun rows = Except.ok out →
      alookup c out.1 = some ytbl →
      mainOutput rows2 = mainOutput rows ∧
      akeys out.1 = countriesInOrder rows ∧
      akeys out.2 = countriesInOrder rows ∧
      some (akeys ytbl) = yearKeysOrder c rows := by
  intro rows rows2 out c ytbl h2 hout hc
  obtain ⟨st, hst, rfl⟩ := (mainRun_ok rows out).mp hout
  obtain ⟨hkeys1, hkeys2⟩ := runRows_keys rows ([], []) st hst rfl
  have hk1 : akeys (postProcess st).1 = akeys st.1 := akeys_map _ st.1
  have hk2 : akeys (postProcess st).2 = akeys st.2 := akeys_map _ st.2
  refine ⟨by rw [h2], ?_, ?_, ?_⟩
  · rw [hk1, hkeys1]
    rfl
  · rw [hk2, hkeys2, hkeys1]
    rfl
  · rw [postProcess_rd_lookup] at hc
    cases hl : alookup c st.1 with
    | none =>
      rw [hl] at hc
      exact Option.noConfusion hc
    | some ytbl0 =>
      rw [hl, Option.map_some'] at hc
      have hcne : c ≠ "" := by
        intro he
        apply runRows_ne_blank rows st hst
        rw [← he]
        exact (alookup_isSome_iff c st.1).mp (by rw [hl]; rfl)
      have hyk := runRows_yearKeys rows ([], []) st hst c hcne
      rw [hl, Option.map_some'] at hyk
      rw [← Option.some.inj hc, akeys_map]
      exact hyk

set_option synthInstance.maxSize 1024 in
set_option maxRecDepth 8192 in
/-- Claim C10 witness: a concrete two-row run; countries appear in first-seen
order `A`, `B`, and the year keys of `A` are those of its qualifying
contributions. -/
theorem deterministic_output_and_key_order_witness :
    mainOutput
        [[("country", "A"), ("p_country", "5"), ("p_global_22", "7")],
         [("country", "B"), ("p_country", "1"), ("p_global_90", "2")]] =
      mainOutput
        [[("country", "A"), ("p_country", "5"), ("p_global_22", "7")],
         [("country", "B"), ("p_country", "1"), ("p_global_90", "2")]] ∧
    akeys ([("A", [("2022", [Point.mk 5 (some 7) none none])]),
        ("B", [("1990", [Point.mk 1 (some 2) none none])])] : RawData) =
      countriesInOrder
        [[("country", "A"), ("p_country", "5"), ("p_global_22", "7")],
         [("country", "B"), ("p_country", "1"), ("p_global_90", "2")]] ∧
    akeys ([("A", ([] : InfoRec)), ("B", ([] : InfoRec))]) =
      countriesInOrder
        [[("country", "A"), ("p_country", "5"), ("p_global_22", "7")],
         [("country", "B"), ("p_country", "1"), ("p_global_90", "2")]] ∧
    some (akeys ([("2022", [Point.mk 5 (some 7) none none])] : YearTbl)) =
      yearKeysOrder "A"
        [[("country", "A"), ("p_country", "5"), ("p_global_22", "7")],
         [("country", "B"), ("p_country", "1"), ("p_global_90", "2")]] :=
  deterministic_output_and_key_order
    [[("country", "A"), ("p_country", "5"), ("p_global_22", "7")],
     [("country", "B"), ("p_country", "1"), ("p_global_90", "2")]]
    [[("country", "A"), ("p_country", "5"), ("p_global_22", "7")],
     [("country", "B"), ("p_country", "1"), ("p_global_90", "2")]]
    ([("A", [("2022", [Point.mk 5 (some 7) none none])]),
      ("B", [("1990", [Point.mk 1 (some 2) none none])])],
     [("A", []), ("B", [])])
    "A" [("2022", [Point.mk 5 (some 7) none none])]
    rfl (by decide) (by decide)

end WiidGen
